import Mathlib

/-!
# Shallow embedding of the microui-ebitengine interaction engine

This file embeds the Go sources `helpers.go` and `controls.go` of the
microui port (package `microui`) in Lean 4 and proves the frozen claims
about them.  Go pointers to containers are modelled as indices into the
context's container table; Go panics (from `expect` and out-of-range
indexing) are modelled by `Option`-valued functions returning `none`;
Go's 64-bit unsigned `ID` arithmetic is modelled on `Nat` with explicit
reduction modulo `2 ^ 64`; Go `float64` values are modelled as exact
rationals (`ℚ`).

Types that the two source files use but that are declared elsewhere in
the repository (the `Context` struct, the slot pool, the command buffer,
option/response bit masks) are modelled from the specification; each such
definition carries a doc comment starting with `Modelled from the spec:`.
-/

namespace Microui

/-! ## Go standard library `image` geometry (external collaborator)

`image.Point` and `image.Rectangle` come from the Go standard library;
the operations below follow the documented stdlib semantics exactly
(`Intersect` canonicalises an empty intersection to the zero rectangle,
`In` on an empty rectangle is true, `Overlaps` requires both rectangles
non-empty). -/

structure GoPoint where
  x : Int
  y : Int
deriving DecidableEq, Repr

structure GoRect where
  minX : Int
  minY : Int
  maxX : Int
  maxY : Int
deriving DecidableEq, Repr

def GoRect.Dx (r : GoRect) : Int := r.maxX - r.minX

def GoRect.Dy (r : GoRect) : Int := r.maxY - r.minY

def GoRect.Empty (r : GoRect) : Bool := r.minX ≥ r.maxX || r.minY ≥ r.maxY

/-- Go `image.Point.In`: half-open membership test of a point in a rectangle. -/
def GoPoint.In (p : GoPoint) (r : GoRect) : Bool :=
  r.minX ≤ p.x && p.x < r.maxX && r.minY ≤ p.y && p.y < r.maxY

/-- Go `image.Rectangle.In`: `r` is inside `s`; an empty `r` is inside everything. -/
def GoRect.In (r s : GoRect) : Bool :=
  if r.Empty then true
  else s.minX ≤ r.minX && r.maxX ≤ s.maxX && s.minY ≤ r.minY && r.maxY ≤ s.maxY

def GoRect.Overlaps (r s : GoRect) : Bool :=
  !r.Empty && !s.Empty &&
    r.minX < s.maxX && s.minX < r.maxX && r.minY < s.maxY && s.minY < r.maxY

/-- The zero rectangle `image.ZR` that Go's `Intersect` returns for an
empty intersection. -/
def GoRect.zero : GoRect := ⟨0, 0, 0, 0⟩

/-- Go `image.Rectangle.Intersect`: clip the bounds together and
canonicalise an empty result to the zero rectangle. -/
def GoRect.Intersect (r s : GoRect) : GoRect :=
  let t : GoRect :=
    ⟨Max.max r.minX s.minX, Max.max r.minY s.minY,
     Min.min r.maxX s.maxX, Min.min r.maxY s.maxY⟩
  if t.Empty then GoRect.zero else t

/-- Go `image.Rectangle.Add`: translate a rectangle by a point. -/
def GoRect.Add (r : GoRect) (p : GoPoint) : GoRect :=
  ⟨r.minX + p.x, r.minY + p.y, r.maxX + p.x, r.maxY + p.y⟩

/-! ## helpers.go: min / max / clamp -/

/-- `helpers.go` `min` on Go ints. -/
def goMin (a b : Int) : Int := if a < b then a else b

/-- `helpers.go` `max` on Go ints. -/
def goMax (a b : Int) : Int := if a > b then a else b

/-- `helpers.go` `minF` on Go float64, modelled on ℚ. -/
def minF (a b : ℚ) : ℚ := if a < b then a else b

/-- `helpers.go` `maxF` on Go float64, modelled on ℚ. -/
def maxF (a b : ℚ) : ℚ := if a > b then a else b

/-- `helpers.go` `clamp`. -/
def clamp (x a b : Int) : Int := goMin b (goMax a x)

/-- `helpers.go` `clampF`. -/
def clampF (x a b : ℚ) : ℚ := minF b (maxF a x)

/-- Go `math.Round`: round half away from zero, modelled on ℚ. -/
def goRound (x : ℚ) : ℚ :=
  if x ≥ 0 then ((x + 1/2).floor : ℤ) else -((((-x) + 1/2).floor : ℤ) : ℚ)

/-- Go `int(x)` conversion from float64: truncation toward zero, on ℚ. -/
def goTruncToInt (x : ℚ) : Int :=
  if x ≥ 0 then x.floor else -(-x).floor

/-! ## helpers.go: FNV-1a hashing

`ID` is the repository's 64-bit unsigned hash type; it is modelled as a
`Nat` kept below `2 ^ 64` by reducing after each multiplication. -/

/-- The FNV prime used in `helpers.go` `fnv1a`. -/
def fnvPrime : Nat := 1099511628211

/-- `2 ^ 64`, the modulus of Go's `uint64` arithmetic (`ID` is a 64-bit hash). -/
def uint64Mod : Nat := 2 ^ 64

/-- `helpers.go` `fnv1a`: fold each byte into the hash by XOR followed by
multiplication with the FNV prime, in 64-bit unsigned arithmetic. -/
def fnv1a (init : Nat) (data : List Nat) : Nat :=
  data.foldl (fun h b => ((h ^^^ b) * fnvPrime) % uint64Mod) init

/-- The FNV-1a 64-bit offset basis `hashInitial` from `helpers.go` `id`. -/
def hashInitial : Nat := 14695981039346656037

/-! ## Modelled constants

The option, response, mouse and key bit masks are declared in repository
files that are not part of the two sources given; they are single-bit
masks, as the spec's "Widget option flags (bitset, combinable)" and
"Button/key masks are bitsets" require. -/

/-- Modelled from the spec: widget option bit `OptAlignCenter`. -/
def OptAlignCenter : Nat := 1

/-- Modelled from the spec: widget option bit `OptAlignRight`. -/
def OptAlignRight : Nat := 2

/-- Modelled from the spec: widget option bit `OptNoInteract`. -/
def OptNoInteract : Nat := 4

/-- Modelled from the spec: widget option bit `OptNoFrame`. -/
def OptNoFrame : Nat := 8

/-- Modelled from the spec: widget option bit `OptNoResize`. -/
def OptNoResize : Nat := 16

/-- Modelled from the spec: widget option bit `OptNoScroll`. -/
def OptNoScroll : Nat := 32

/-- Modelled from the spec: widget option bit `OptNoClose`. -/
def OptNoClose : Nat := 64

/-- Modelled from the spec: widget option bit `OptNoTitle`. -/
def OptNoTitle : Nat := 128

/-- Modelled from the spec: widget option bit `OptHoldFocus`
("hold-focus-through-release"). -/
def OptHoldFocus : Nat := 256

/-- Modelled from the spec: widget option bit `OptAutoSize`. -/
def OptAutoSize : Nat := 512

/-- Modelled from the spec: widget option bit `OptPopup`. -/
def OptPopup : Nat := 1024

/-- Modelled from the spec: widget option bit `OptClosed`
("only return an already-open container, else nil"). -/
def OptClosed : Nat := 2048

/-- Modelled from the spec: widget option bit `OptExpanded`. -/
def OptExpanded : Nat := 4096

/-- Modelled from the spec: response bit `ResponseActive`. -/
def ResponseActive : Nat := 1

/-- Modelled from the spec: response bit `ResponseSubmit`. -/
def ResponseSubmit : Nat := 2

/-- Modelled from the spec: response bit `ResponseChange`. -/
def ResponseChange : Nat := 4

/-- Modelled from the spec: mouse-button bit `mouseLeft` of the
level-triggered `mouseDown` and edge-triggered `mousePressed` masks. -/
def mouseLeft : Nat := 1

/-- Modelled from the spec: key bit `keyShift` of the key masks. -/
def keyShift : Nat := 1

/-- Modelled from the spec: key bit `keyBackspace` of the key masks. -/
def keyBackspace : Nat := 2

/-- Modelled from the spec: key bit `keyReturn` of the key masks. -/
def keyReturn : Nat := 4

/-- Go's test `(^opt & mask) != 0` as the two source files use it: `mask`
is always a single option bit there, so the test holds exactly when that
bit of `opt` is clear. -/
def optUnset (opt mask : Nat) : Bool := opt &&& mask == 0

/-- Modelled from the spec: command-type tag `commandJump` of the
command-buffer tagged variant. -/
def commandJump : Nat := 1

/-- Modelled from the spec: command-type tag for clip-rect-change commands. -/
def commandClip : Nat := 2

/-- Modelled from the spec: command-type tag for rectangle-fill commands. -/
def commandRect : Nat := 3

/-- Modelled from the spec: command-type tag for text-draw commands. -/
def commandText : Nat := 6

/-- Modelled from the spec: command-type tag for icon-draw commands. -/
def commandIcon : Nat := 7

/-- Modelled from the spec: fixed capacity `commandListSize` of the
command buffer ("a command-buffer capacity overflow" is fatal). -/
def commandListSize : Nat := 4096

/-- Modelled from the spec: fixed capacity of the container slot pool. -/
def containerPoolSize : Nat := 48

/-- Modelled from the spec (§3 "Command Buffer Entry"): a tagged variant
over text/rect/icon/clip draws and jumps.  A jump carries a mutable
destination index, initially unresolved (`-1`), written during
end-of-frame patching.  Draw payloads (rectangles, strings, colors) are
opaque to every claim, so only the tag and the jump destination are
modelled. -/
structure command where
  typ : Nat
  dstIdx : Int
deriving DecidableEq, Repr

instance : Inhabited command := ⟨⟨0, 0⟩⟩

/-- Modelled from the spec (§3 "Slot Pool Entry"):
`{ id: Identity, lastUsedTick: uint }`; the zero value means "empty". -/
structure poolItem where
  id : Nat
  lastUpdate : Nat
deriving DecidableEq, Repr

instance : Inhabited poolItem := ⟨⟨0, 0⟩⟩

/-- Modelled from the spec (§3 "Container") and from the field uses in
the two source files: rectangle, body rectangle, content size, scroll
offset, z-index, open flag, and head/tail command-range markers. -/
structure Container where
  Rect : GoRect := GoRect.zero
  Body : GoRect := GoRect.zero
  ContentSize : GoPoint := ⟨0, 0⟩
  Scroll : GoPoint := ⟨0, 0⟩
  ZIndex : Int := 0
  Open : Bool := false
  HeadIdx : Int := 0
  TailIdx : Int := 0
deriving DecidableEq, Repr

instance : Inhabited Container := ⟨{}⟩

/-- Modelled from the spec (§3 "Layout Record"): only the fields the two
source files touch are kept (`body`, running `max` extent, `indent`). -/
structure layout where
  body : GoRect := GoRect.zero
  max : GoPoint := ⟨0, 0⟩
  indent : Int := 0
deriving DecidableEq, Repr

/-- Modelled from the spec (§6 "Style/configuration"): the style fields
the two source files read. -/
structure Style where
  Padding : Int := 5
  Spacing : Int := 4
  Indent : Int := 24
  TitleHeight : Int := 24
  ScrollbarSize : Int := 12
  ThumbSize : Int := 8
deriving DecidableEq, Repr

/-- Modelled from the spec (§3 data model) and the field uses in the two
source files: the `Context` struct.  Go pointers to containers
(`*Container` in `containerStack`, `rootList`, `hoverRoot`,
`nextHoverRoot`, `scrollTarget`) are modelled as indices into
`containers`; pointer equality becomes index equality. -/
structure Context where
  Style : Style := {}
  hover : Nat := 0
  focus : Nat := 0
  LastID : Nat := 0
  keepFocus : Bool := false
  lastZIndex : Int := 0
  tick : Nat := 0
  commandList : List command := []
  rootList : List Nat := []
  containerStack : List Nat := []
  clipStack : List GoRect := []
  idStack : List Nat := []
  layoutStack : List layout := []
  containerPool : List poolItem := []
  containers : List Container := []
  mousePos : GoPoint := ⟨0, 0⟩
  lastMousePos : GoPoint := ⟨0, 0⟩
  mouseDelta : GoPoint := ⟨0, 0⟩
  scrollDelta : GoPoint := ⟨0, 0⟩
  mouseDown : Nat := 0
  mousePressed : Nat := 0
  keyDown : Nat := 0
  keyPressed : Nat := 0
  textInput : List Char := []
  numberEdit : Nat := 0
  numberEditBuf : List Char := []
  hoverRoot : Option Nat := none
  nextHoverRoot : Option Nat := none
  scrollTarget : Option Nat := none
deriving DecidableEq, Repr

/-! ## helpers.go: id stack and hashing -/

/-- The seed `init` chosen by `helpers.go` `id`: the top of the id stack
when it is non-empty, else the fixed offset basis `hashInitial`. -/
def idSeed (c : Context) : Nat :=
  match c.idStack.getLast? with
  | some top => top
  | none => hashInitial

/-- The hash value returned by `helpers.go` `(c *Context).id`. -/
def ctxIdVal (c : Context) (data : List Nat) : Nat := fnv1a (idSeed c) data

/-- `helpers.go` `(c *Context).id`: computes the hash and records it in
`c.LastID`. -/
def ctxId (c : Context) (data : List Nat) : Context × Nat :=
  let i := ctxIdVal c data
  ({ c with LastID := i }, i)

/-- `helpers.go` `pushID`. -/
def pushID (c : Context) (data : List Nat) : Context × Nat :=
  let (c, i) := ctxId c data
  ({ c with idStack := c.idStack ++ [i] }, i)

/-- `helpers.go` `popID`; Go's slicing `[:len-1]` panics on an empty
stack, modelled by `none`. -/
def popID (c : Context) : Option Context :=
  match c.idStack with
  | [] => none
  | _ => some { c with idStack := c.idStack.dropLast }

/-! ## helpers.go: clip-rectangle stack -/

/-- `helpers.go` `clipRect`: the top of the clip stack; indexing an empty
stack panics in Go, modelled by `none`. -/
def clipRectTop (c : Context) : Option GoRect := c.clipStack.getLast?

/-- `helpers.go` `pushClipRect`: push the intersection of `rect` with the
current top of the stack. -/
def pushClipRect (c : Context) (rect : GoRect) : Option Context :=
  match clipRectTop c with
  | none => none
  | some last => some { c with clipStack := c.clipStack ++ [rect.Intersect last] }

/-- `helpers.go` `popClipRect`. -/
def popClipRect (c : Context) : Option Context :=
  match c.clipStack with
  | [] => none
  | _ => some { c with clipStack := c.clipStack.dropLast }

/-- Modelled from the spec: the huge `unclippedRect` pushed directly (not
intersected) by `window` in `controls.go` to reset clipping for a root
container. -/
def unclippedRect : GoRect := ⟨0, 0, 16777216, 16777216⟩

/-- The raw push `c.clipStack = append(c.clipStack, unclippedRect)`
performed inline by `window` (controls.go line 557). -/
def windowPushUnclipped (c : Context) : Context :=
  { c with clipStack := c.clipStack ++ [unclippedRect] }

/-! ## Slot pool (modelled) and helpers.go `container` -/

/-- Modelled from the spec (§4.2): `get(id) -> slot|absent` — the slot
currently mapped to `id`, if any. -/
def poolGet (items : List poolItem) (id : Nat) : Option Nat :=
  items.findIdx? (fun it => it.id == id)

/-- Modelled from the spec (§4.2): `touch(slot)` — refresh the slot's
recency to the current tick. -/
def poolUpdate (items : List poolItem) (idx : Nat) (tick : Nat) : List poolItem :=
  match items.get? idx with
  | none => items
  | some it => items.set idx { it with lastUpdate := tick }

/-- Modelled from the spec (§4.2): the eviction scan of `init` — the index
of the entry with the smallest `lastUsedTick` strictly below the current
tick; `none` when every entry is at least as recent (the fatal
"by construction never should" case). -/
def poolEvictScan (items : List poolItem) (tick : Nat) : Option Nat :=
  (List.range items.length).foldl
    (fun best i =>
      let f := match best with
        | none => tick
        | some b => ((items.get? b).getD default).lastUpdate
      if ((items.get? i).getD default).lastUpdate < f then some i else best)
    none

/-- Modelled from the spec (§4.2): `init(id) -> slot` — evict the
least-recently-touched slot, assign `id` to it and refresh its recency. -/
def poolInit (items : List poolItem) (id : Nat) (tick : Nat) : Option (List poolItem × Nat) :=
  match poolEvictScan items tick with
  | none => none
  | some idx => some (poolUpdate (items.set idx { (items.get? idx).getD default with id := id }) idx tick, idx)

/-- `helpers.go` `bringToFront`: increment the z counter and assign it to
the container (given by index). -/
def bringToFront (c : Context) (ci : Nat) : Context :=
  let z := c.lastZIndex + 1
  { c with lastZIndex := z,
           containers := c.containers.set ci { (c.containers.getD ci default) with ZIndex := z } }

/-- `helpers.go` `(c *Context).container`: look the id up in the pool,
refresh recency only for an open container or when the closed option is
absent, and return the pooled container either way; with no pooled entry
return nil under `OptClosed`, else initialise a fresh slot, reset the
container record, mark it open and bring it to front.  The outer `Option`
is the Go panic from pool-eviction failure; the inner `Option Nat` is the
returned `*Container` (`none` = nil, `some i` = pointer to slot `i`). -/
def container (c : Context) (id : Nat) (opt : Nat) : Option (Context × Option Nat) :=
  match poolGet c.containerPool id with
  | some idx =>
    let c :=
      if (c.containers.getD idx default).Open || optUnset opt OptClosed then
        { c with containerPool := poolUpdate c.containerPool idx c.tick }
      else c
    some (c, some idx)
  | none =>
    if opt &&& OptClosed != 0 then some (c, none)
    else
      match poolInit c.containerPool id c.tick with
      | none => none
      | some (pool, idx) =>
        let cnt : Container := { HeadIdx := -1, TailIdx := -1, Open := true }
        let c := { c with containerPool := pool, containers := c.containers.set idx cnt }
        some (bringToFront c idx, some idx)

/-! ## controls.go: hover-root test, mouse-over, focus -/

/-- `helpers.go` `SetFocus`. -/
def SetFocus (c : Context) (id : Nat) : Context :=
  { c with focus := id, keepFocus := true }

/-- The loop body of `controls.go` `inHoverRoot`, walking the container
stack from the top down: stop successfully on the hover root, stop
unsuccessfully on the first root container (`HeadIdx ≥ 0`). -/
def inHoverRootLoop (c : Context) : List Nat → Bool
  | [] => false
  | i :: rest =>
    if c.hoverRoot == some i then true
    else if (c.containers.getD i default).HeadIdx ≥ 0 then false
    else inHoverRootLoop c rest

/-- `controls.go` `inHoverRoot`. -/
def inHoverRoot (c : Context) : Bool := inHoverRootLoop c c.containerStack.reverse

/-- `controls.go` `mouseOver`: the pointer is in `rect`, in the current
clip rectangle and in the hover root.  Go's `&&` short-circuits, so the
clip stack (whose top would panic when empty) is only consulted when the
pointer is inside `rect`. -/
def mouseOver (c : Context) (rect : GoRect) : Option Bool :=
  if !c.mousePos.In rect then some false
  else
    match clipRectTop c with
    | none => none
    | some cr => some (c.mousePos.In cr && inHoverRoot c)

/-- `controls.go` `updateControl`. -/
def updateControl (c : Context) (id : Nat) (rect : GoRect) (opt : Nat) : Option Context :=
  if id == 0 then some c
  else
    match mouseOver c rect with
    | none => none
    | some mouseover =>
      let c := if c.focus == id then { c with keepFocus := true } else c
      if opt &&& OptNoInteract != 0 then some c
      else
        let c := if mouseover && c.mouseDown == 0 then { c with hover := id } else c
        let c :=
          if c.focus == id then
            let c := if c.mousePressed != 0 && !mouseover then SetFocus c 0 else c
            if c.mouseDown == 0 && optUnset opt OptHoldFocus then SetFocus c 0 else c
          else c
        let c :=
          if c.hover == id then
            if c.mousePressed != 0 then SetFocus c id
            else if !mouseover then { c with hover := 0 }
            else c
          else c
        some c

/-! ## Draw operations (modelled)

The spec places rasterization out of scope and makes draw payloads opaque
command-buffer entries; the `drawFrame` / `drawRect` / `drawText` /
`drawIcon` bodies live in repository files that are not part of the two
sources.  They are modelled as appends of the corresponding tagged
commands. -/

/-- Append one command to the command buffer. -/
def pushCommand (c : Context) (cmd : command) : Context :=
  { c with commandList := c.commandList ++ [cmd] }

/-- Modelled from the spec: `drawRect` appends a rectangle-fill command. -/
def drawRect (c : Context) (_rect : GoRect) (_colorid : Nat) : Context :=
  pushCommand c ⟨commandRect, 0⟩

/-- Modelled from the spec: `drawFrame` appends rectangle-fill commands
for the body and border of a frame. -/
def drawFrame (c : Context) (_rect : GoRect) (_colorid : Nat) : Context :=
  pushCommand c ⟨commandRect, 0⟩

/-- Modelled from the spec: `drawText` appends a text-draw command. -/
def drawText (c : Context) (_str : List Char) (_pos : GoPoint) (_colorid : Nat) : Context :=
  pushCommand c ⟨commandText, 0⟩

/-- Modelled from the spec: `drawIcon` appends an icon-draw command. -/
def drawIcon (c : Context) (_iconId : Nat) (_rect : GoRect) (_colorid : Nat) : Context :=
  pushCommand c ⟨commandIcon, 0⟩

/-- Modelled from the spec: the external text-metrics collaborator
`textWidth`, an opaque pure function returning pixel extents. -/
def textWidth (s : List Char) : Int := 6 * s.length

/-- Modelled from the spec: the external text-metrics collaborator
`lineHeight`. -/
def lineHeight : Int := 16

/-- `controls.go` `drawControlFrame`. -/
def drawControlFrame (c : Context) (id : Nat) (rect : GoRect) (colorid : Nat) (opt : Nat) : Context :=
  if opt &&& OptNoFrame != 0 then c
  else
    let colorid := if c.focus == id then colorid + 2
                   else if c.hover == id then colorid + 1
                   else colorid
    drawFrame c rect colorid

/-- `controls.go` `drawControlText`: push a clip rectangle, draw the
aligned text, pop the clip rectangle. -/
def drawControlText (c : Context) (str : List Char) (rect : GoRect) (colorid : Nat) (opt : Nat) :
    Option Context :=
  let tw := textWidth str
  match pushClipRect c rect with
  | none => none
  | some c =>
    let posY := rect.minY + (rect.Dy - lineHeight) / 2
    let posX :=
      if opt &&& OptAlignCenter != 0 then rect.minX + (rect.Dx - tw) / 2
      else if opt &&& OptAlignRight != 0 then rect.minX + rect.Dx - tw - c.Style.Padding
      else rect.minX + c.Style.Padding
    let c := drawText c str ⟨posX, posY⟩ colorid
    popClipRect c

/-! ## controls.go: text boxes, number box, slider, scrollbars

`Control` first asks the layout engine for the next rectangle
(`layoutNext` lives in the missing layout file), then runs
`updateControl` and the widget body.  The rectangle is passed in
explicitly here: every claim about these widgets is a statement for an
arbitrary control rectangle. -/

/-- The interaction block of `controls.go` `textBoxRaw` (run when the
box has focus): append the frame's text input, apply backspace against
the buffer length sampled at entry, and on the return key drop focus and
report a submit. -/
def textBoxInteraction (c : Context) (buf : List Char) (buflen : Nat) :
    Context × List Char × Nat :=
  let p1 : List Char × Nat :=
    if c.textInput.length > 0 then (buf ++ c.textInput, 0 ||| ResponseChange)
    else (buf, 0)
  let p2 : List Char × Nat :=
    if c.keyPressed &&& keyBackspace != 0 && buflen > 0 then
      (p1.1.take (buflen - 1), p1.2 ||| ResponseChange)
    else p1
  if c.keyPressed &&& keyReturn != 0 then (SetFocus c 0, p2.1, p2.2 ||| ResponseSubmit)
  else (c, p2.1, p2.2)

/-- The draw block of `controls.go` `textBoxRaw`: control frame, then
either the focused rendering (clipped text plus caret) or the plain
control text. -/
def textBoxDraw (c : Context) (buf : List Char) (i : Nat) (r : GoRect) (opt : Nat) :
    Option Context :=
  let c := drawControlFrame c i r 3 opt
  if c.focus == i then
    let textw := textWidth buf
    let texth := lineHeight
    let ofx := r.Dx - c.Style.Padding - textw - 1
    let textx := r.minX + goMin ofx c.Style.Padding
    let texty := r.minY + (r.Dy - texth) / 2
    match pushClipRect c r with
    | none => none
    | some c =>
      let c := drawText c buf ⟨textx, texty⟩ 0
      let c := drawRect c ⟨textx + textw, texty, textx + textw + 1, texty + texth⟩ 0
      popClipRect c
  else drawControlText c buf r 0 opt

/-- `controls.go` `textBoxRaw` (body of its `Control` call, with the
layout-provided rectangle `r` passed explicitly): update the control with
the hold-focus bit forced on, run the interaction block when focused,
then draw.  Returns the updated context, the updated buffer (Go mutates
`*buf`) and the response mask. -/
def textBoxRaw (c : Context) (buf : List Char) (i : Nat) (r : GoRect) (opt : Nat) :
    Option (Context × List Char × Nat) :=
  match updateControl c i r (opt ||| OptHoldFocus) with
  | none => none
  | some c =>
    let t := if c.focus == i then textBoxInteraction c buf buf.length else (c, buf, 0)
    match textBoxDraw t.1 t.2.1 i r opt with
    | none => none
    | some cd => some (cd, t.2.1, t.2.2)

/-- `controls.go` `numberTextBox` (with the control rectangle `r` passed
explicitly).  The external collaborators `fmt.Sprintf(realFmt, ·)` and
`strconv.ParseFloat` are parameters `fmtReal` and `parse`; a parse error
is `parse _ = none`.  Returns the updated context, the updated bound
value and whether text-edit mode handled the widget. -/
def numberTextBox (fmtReal : ℚ → List Char) (parse : List Char → Option ℚ)
    (c : Context) (value : ℚ) (id : Nat) (r : GoRect) :
    Option (Context × ℚ × Bool) :=
  let c :=
    if c.mousePressed == mouseLeft && c.keyDown &&& keyShift != 0 && c.hover == id then
      { c with numberEdit := id, numberEditBuf := fmtReal value }
    else c
  if c.numberEdit == id then
    match textBoxRaw c c.numberEditBuf id r 0 with
    | none => none
    | some (c, buf, res) =>
      let c := { c with numberEditBuf := buf }
      if res &&& ResponseSubmit != 0 || c.focus != id then
        let nval := match parse c.numberEditBuf with
          | none => 0
          | some q => q
        some ({ c with numberEdit := 0 }, nval, true)
      else some (c, value, true)
  else some (c, value, false)

/-- The byte sequence of `ptrToBytes(unsafe.Pointer(value))`: the raw
address bits of the bound value's pointer, an opaque caller-stable byte
payload; passed explicitly as `addr`. -/
def sliderStepped (c : Context) (r : GoRect) (low high step : ℚ) : ℚ :=
  let v := low + ((c.mousePos.x - r.minX : Int) : ℚ) * (high - low) / ((r.Dx : Int) : ℚ)
  if step ≠ 0 then goRound (v / step) * step else v

/-- The draw block of `controls.go` `SliderEx`: base frame, thumb frame
positioned from the value, and the formatted value text. -/
def sliderDraw (c : Context) (i : Nat) (v low high : ℚ) (fmtSlider : ℚ → List Char)
    (r : GoRect) (opt : Nat) : Option Context :=
  let c := drawControlFrame c i r 3 opt
  let w := c.Style.ThumbSize
  let x := goTruncToInt ((v - low) * ((r.Dx - w : Int) : ℚ) / (high - low))
  let thumb : GoRect := ⟨r.minX + x, r.minY, r.minX + x + w, r.maxY⟩
  let c := drawControlFrame c i thumb 5 opt
  drawControlText c (fmtSlider v) r 0 opt

/-- `controls.go` `SliderEx` (with the pointer bytes `addr` and the
layout-provided rectangle `r` passed explicitly).  Returns the updated
context, the bound value after the call and the response mask. -/
def SliderEx (fmtReal : ℚ → List Char) (parse : List Char → Option ℚ)
    (fmtSlider : ℚ → List Char) (addr : List Nat)
    (c : Context) (value low high step : ℚ) (r : GoRect) (opt : Nat) :
    Option (Context × ℚ × Nat) :=
  let last := value
  let v := last
  let (c, id) := ctxId c addr
  match numberTextBox fmtReal parse c v id r with
  | none => none
  | some (c, _v, true) => some (c, value, 0)
  | some (c, v, false) =>
    match updateControl c id r opt with
    | none => none
    | some c =>
      let res : Nat := 0
      let v :=
        if c.focus == id && (c.mouseDown ||| c.mousePressed) == mouseLeft then
          sliderStepped c r low high step
        else v
      let value := clampF v low high
      let v := value
      let res := if last ≠ v then res ||| ResponseChange else res
      match sliderDraw c id v low high fmtSlider r opt with
      | none => none
      | some c => some (c, value, res)

/-- The bytes of the literal `"!scrollbar" + "y"`. -/
def scrollbarYBytes : List Nat := [33, 115, 99, 114, 111, 108, 108, 98, 97, 114, 121]

/-- The bytes of the literal `"!scrollbar" + "x"`. -/
def scrollbarXBytes : List Nat := [33, 115, 99, 114, 111, 108, 108, 98, 97, 114, 120]

/-- Write a container (given by index) back into the context. -/
def setContainer (c : Context) (ci : Nat) (cnt : Container) : Context :=
  { c with containers := c.containers.set ci cnt }

/-- `controls.go` `scrollbarVertical` (the container pointer is the index
`ci`).  When the padded content height exceeds the body height the scroll
offset is dragged and clamped to `[0, maxscroll]`; otherwise it is reset
to zero. -/
def scrollbarVertical (c : Context) (ci : Nat) (b : GoRect) (cs : GoPoint) : Option Context :=
  let cnt := c.containers.getD ci default
  let maxscroll := cs.y - b.Dy
  if maxscroll > 0 && b.Dy > 0 then
    let (c, id) := ctxId c scrollbarYBytes
    let base : GoRect := ⟨b.maxX, b.minY, b.maxX + c.Style.ScrollbarSize, b.maxY⟩
    match updateControl c id base 0 with
    | none => none
    | some c =>
      let cnt :=
        if c.focus == id && c.mouseDown == mouseLeft then
          { cnt with Scroll := ⟨cnt.Scroll.x, cnt.Scroll.y + Int.tdiv (c.mouseDelta.y * cs.y) base.Dy⟩ }
        else cnt
      let cnt := { cnt with Scroll := ⟨cnt.Scroll.x, clamp cnt.Scroll.y 0 maxscroll⟩ }
      let c := setContainer c ci cnt
      let c := drawFrame c base 9
      let thumbH := goMax c.Style.ThumbSize (Int.tdiv (base.Dy * b.Dy) cs.y)
      let thumb : GoRect := ⟨base.minX, base.minY, base.maxX, base.minY + thumbH⟩
      let thumb := thumb.Add ⟨0, Int.tdiv (cnt.Scroll.y * (base.Dy - thumb.Dy)) maxscroll⟩
      let c := drawFrame c thumb 10
      match mouseOver c b with
      | none => none
      | some mo => some (if mo then { c with scrollTarget := some ci } else c)
  else
    some (setContainer c ci { cnt with Scroll := ⟨cnt.Scroll.x, 0⟩ })

/-- `controls.go` `scrollbarHorizontal`: the x/y-swapped twin of
`scrollbarVertical`. -/
def scrollbarHorizontal (c : Context) (ci : Nat) (b : GoRect) (cs : GoPoint) : Option Context :=
  let cnt := c.containers.getD ci default
  let maxscroll := cs.x - b.Dx
  if maxscroll > 0 && b.Dx > 0 then
    let (c, id) := ctxId c scrollbarXBytes
    let base : GoRect := ⟨b.minX, b.maxY, b.maxX, b.maxY + c.Style.ScrollbarSize⟩
    match updateControl c id base 0 with
    | none => none
    | some c =>
      let cnt :=
        if c.focus == id && c.mouseDown == mouseLeft then
          { cnt with Scroll := ⟨cnt.Scroll.x + Int.tdiv (c.mouseDelta.x * cs.x) base.Dx, cnt.Scroll.y⟩ }
        else cnt
      let cnt := { cnt with Scroll := ⟨clamp cnt.Scroll.x 0 maxscroll, cnt.Scroll.y⟩ }
      let c := setContainer c ci cnt
      let c := drawFrame c base 9
      let thumbW := goMax c.Style.ThumbSize (Int.tdiv (base.Dx * b.Dx) cs.x)
      let thumb : GoRect := ⟨base.minX, base.minY, base.minX + thumbW, base.maxY⟩
      let thumb := thumb.Add ⟨Int.tdiv (cnt.Scroll.x * (base.Dx - thumb.Dx)) maxscroll, 0⟩
      let c := drawFrame c thumb 10
      match mouseOver c b with
      | none => none
      | some mo => some (if mo then { c with scrollTarget := some ci } else c)
  else
    some (setContainer c ci { cnt with Scroll := ⟨0, cnt.Scroll.y⟩ })

/-! ## helpers.go: `end` (frame end) and the jump-patching pass -/

/-- The write `c.commandList[idx].jump.dstIdx = dst`: Go panics when
`idx` is out of range, modelled by `none`; the command's tag and other
payload are untouched. -/
def commandSetDst (cmds : List command) (idx : Int) (dst : Int) : Option (List command) :=
  if h : 0 ≤ idx ∧ idx.toNat < cmds.length then
    some (cmds.set idx.toNat { cmds.get ⟨idx.toNat, h.2⟩ with dstIdx := dst })
  else none

/-- Iterations `i = 1 .. n-1` of the jump-patch loop in `helpers.go`
`end`: patch the previous container's tail jump to one past the current
container's head jump; at the end of the list patch the last container's
tail jump to `total`, the length of the command list. -/
def patchJumpsAux (total : Int) : List command → Container → List Container → Option (List command)
  | cmds, prev, [] => commandSetDst cmds prev.TailIdx total
  | cmds, prev, cnt :: rest =>
    match commandSetDst cmds prev.TailIdx (cnt.HeadIdx + 1) with
    | none => none
    | some cmds => patchJumpsAux total cmds cnt rest

/-- The jump-patch loop of `helpers.go` `end` over the z-sorted root
containers: the first command of the buffer must be a jump (asserted),
is patched to one past the first container's head jump, and must stay
inside the buffer capacity (asserted); then the tail jumps are chained
by `patchJumpsAux`. -/
def patchJumps (cmds : List command) (roots : List Container) : Option (List command) :=
  match roots with
  | [] => some cmds
  | r0 :: rest =>
    match cmds.head? with
    | none => none
    | some cmd0 =>
      if cmd0.typ != commandJump then none
      else if ¬(r0.HeadIdx + 1 < (commandListSize : Int)) then none
      else
        patchJumpsAux (cmds.length : Int) (cmds.set 0 { cmd0 with dstIdx := r0.HeadIdx + 1 }) r0 rest

/-- The comparison passed to `sort.SliceStable` in `helpers.go` `end`,
on container indices: z-index order.  Go sorts stably with the strict
`<`; the Lean embedding uses the stable `mergeSort` with `≤`, which
produces the same stable ordering. -/
def rootLe (c : Context) (i j : Nat) : Bool :=
  (c.containers.getD i default).ZIndex ≤ (c.containers.getD j default).ZIndex

/-- `helpers.go` `end`, "handle scroll input": add the accumulated scroll
delta to the scroll target, when one was registered this frame. -/
def endScrollPhase (c : Context) : Context :=
  match c.scrollTarget with
  | some ci =>
    let cnt := c.containers.getD ci default
    setContainer c ci
      { cnt with Scroll := ⟨cnt.Scroll.x + c.scrollDelta.x, cnt.Scroll.y + c.scrollDelta.y⟩ }
  | none => c

/-- `helpers.go` `end`, "unset focus if focus id was not touched this
frame". -/
def endFocusPhase (c : Context) : Context :=
  let c := if !c.keepFocus then { c with focus := 0 } else c
  { c with keepFocus := false }

/-- `helpers.go` `end`, "bring hover root to front if mouse was
pressed". -/
def endHoverRootPhase (c : Context) : Context :=
  match c.nextHoverRoot with
  | some hr =>
    if c.mousePressed != 0 && (c.containers.getD hr default).ZIndex < c.lastZIndex
        && (c.containers.getD hr default).ZIndex ≥ 0 then
      bringToFront c hr
    else c
  | none => c

/-- `helpers.go` `end`, "reset input state". -/
def endInputResetPhase (c : Context) : Context :=
  { c with keyPressed := 0, textInput := [], mousePressed := 0,
           scrollDelta := ⟨0, 0⟩, lastMousePos := c.mousePos }

/-- `helpers.go` `end`, "sort root containers by zindex"
(`sort.SliceStable`). -/
def endSortPhase (c : Context) : Context :=
  { c with rootList := c.rootList.mergeSort (rootLe c) }

/-- `helpers.go` `end`, "set root container jump commands". -/
def endPatchPhase (c : Context) : Option Context :=
  match patchJumps c.commandList (c.rootList.map fun i => c.containers.getD i default) with
  | none => none
  | some cmds => some { c with commandList := cmds }

/-- `helpers.go` `end`: assert the four scoped stacks are empty (a Go
panic, modelled by `none`, otherwise), then run the remaining steps in
source order: scroll dispatch, focus clearing, hover-root z bump, input
reset, stable z-sort of the root list, jump patching. -/
def endFrame (c : Context) : Option Context :=
  if c.containerStack.length != 0 then none
  else if c.clipStack.length != 0 then none
  else if c.idStack.length != 0 then none
  else if c.layoutStack.length != 0 then none
  else
    endPatchPhase (endSortPhase (endInputResetPhase (endHoverRootPhase
      (endFocusPhase (endScrollPhase c)))))

/-! ## Command-buffer replay (the host's consumption contract)

The spec's consumption contract: start at index 0, follow jump entries'
patched destinations, execute draw entries in encountered order, stop
when the index reaches the buffer length.  `replayFrom` returns the list
of executed (non-jump) command indices; the fuel argument bounds the
number of steps taken. -/

def replayFrom (cmds : List command) : Nat → Nat → List Nat
  | 0, _ => []
  | fuel + 1, pc =>
    if h : pc < cmds.length then
      let cmd := cmds.get ⟨pc, h⟩
      if cmd.typ == commandJump then
        if cmd.dstIdx < 0 then [] else replayFrom cmds fuel cmd.dstIdx.toNat
      else pc :: replayFrom cmds fuel (pc + 1)
    else []

/-- The indices of a root container's own commands in the buffer: those
strictly between its head jump and its tail jump. -/
def segCmds (cnt : Container) : List Nat :=
  List.range' (cnt.HeadIdx.toNat + 1) (cnt.TailIdx.toNat - (cnt.HeadIdx.toNat + 1))

/-- Replay steps consumed by one container's segment: its commands plus
its tail jump. -/
def segFuel (cnt : Container) : Nat := cnt.TailIdx.toNat - cnt.HeadIdx.toNat

/-- All fields of a context except the interaction singletons
(`hover`, `focus`, `keepFocus`); `updateControl` may touch only those
three. -/
def stripInteraction (c : Context) : Context :=
  { c with hover := 0, focus := 0, keepFocus := false }

/-! ## Clip-stack operation sequences (for the clip-stack invariant)

The clip stack is mutated between `begin` and `end` only by
`pushClipRect`, by `popClipRect`, and by `window`'s raw append of
`unclippedRect` (controls.go line 557). -/

/-- One clip-stack operation. -/
inductive clipOp where
  | push (r : GoRect)
  | pushUnclipped
  | pop
deriving DecidableEq, Repr

/-- Apply one clip-stack operation as the sources perform it. -/
def applyClipOp (c : Context) : clipOp → Option Context
  | .push r => pushClipRect c r
  | .pushUnclipped => some (windowPushUnclipped c)
  | .pop => popClipRect c

/-- Apply a sequence of clip-stack operations. -/
def applyClipOps (c : Context) : List clipOp → Option Context
  | [] => some c
  | op :: rest =>
    match applyClipOp c op with
    | none => none
    | some c => applyClipOps c rest

/-- The containment invariant of the clip stack (top of the stack is the
last element): every element contains the element above it. -/
def clipChain (s : List GoRect) : Prop :=
  List.Chain' (fun below above => above.In below = true) s

/-! # Theorems -/

/-! ## Shared lemmas -/

theorem clamp_bounds (x a b : Int) (hab : a ≤ b) : a ≤ clamp x a b ∧ clamp x a b ≤ b := by
  unfold clamp goMin goMax
  constructor <;> split <;> split <;> omega

theorem clampF_bounds (x a b : ℚ) (hab : a ≤ b) : a ≤ clampF x a b ∧ clampF x a b ≤ b := by
  unfold clampF minF maxF
  constructor <;> split <;> (try split) <;> linarith

theorem getD_set_self {α : Type} (l : List α) (i : Nat) (a d : α) (h : i < l.length) :
    (l.set i a).getD i d = a := by
  simp [List.getD, List.getElem?_set_self, h]

/-- `updateControl` succeeding can change only the interaction
singletons: every other field of the context survives unchanged. -/
theorem updateControl_strip (c c' : Context) (i : Nat) (r : GoRect) (opt : Nat)
    (h : updateControl c i r opt = some c') :
    stripInteraction c' = stripInteraction c := by
  unfold updateControl SetFocus at h
  split at h
  · cases h; rfl
  · rcases hmo : mouseOver c r with _ | mo <;> rw [hmo] at h
    · cases h
    · by_cases h1 : (c.focus == i) = true <;>
      by_cases h2 : (opt &&& OptNoInteract != 0) = true <;>
      by_cases h3 : (c.mouseDown == 0) = true <;>
      by_cases h4 : (c.mousePressed != 0) = true <;>
      by_cases h5 : optUnset opt OptHoldFocus = true <;>
      by_cases h6 : (c.hover == i) = true <;>
      by_cases h7 : mo = true <;>
      simp only [h1, h2, h3, h4, h5, h6, h7, Bool.not_true, Bool.not_false, if_true, if_false,
        Bool.true_and, Bool.and_true, Bool.false_and, Bool.and_false, beq_self_eq_true,
        if_neg, Bool.false_eq_true, not_false_eq_true, ite_true, ite_false,
        Option.some.injEq] at h <;>
      (try subst h) <;> (try rfl)

theorem strip_containers {c c' : Context} (h : stripInteraction c' = stripInteraction c) :
    c'.containers = c.containers := by
  rw [show c'.containers = (stripInteraction c').containers from rfl, h]; rfl

theorem strip_mouseDown {c c' : Context} (h : stripInteraction c' = stripInteraction c) :
    c'.mouseDown = c.mouseDown := by
  rw [show c'.mouseDown = (stripInteraction c').mouseDown from rfl, h]; rfl

theorem strip_mousePressed {c c' : Context} (h : stripInteraction c' = stripInteraction c) :
    c'.mousePressed = c.mousePressed := by
  rw [show c'.mousePressed = (stripInteraction c').mousePressed from rfl, h]; rfl

theorem strip_keyPressed {c c' : Context} (h : stripInteraction c' = stripInteraction c) :
    c'.keyPressed = c.keyPressed := by
  rw [show c'.keyPressed = (stripInteraction c').keyPressed from rfl, h]; rfl

theorem strip_textInput {c c' : Context} (h : stripInteraction c' = stripInteraction c) :
    c'.textInput = c.textInput := by
  rw [show c'.textInput = (stripInteraction c').textInput from rfl, h]; rfl


/-! ## C2: identity hashing -/

/-- C2: `Context.id` computes the FNV-1a hash of the supplied bytes,
seeded with the top of the id stack when it is non-empty and with the
fixed 64-bit offset basis 14695981039346656037 when it is empty, folding
each byte by XOR followed by multiplication with the FNV prime
1099511628211 modulo `2 ^ 64`; two calls with equal seed and equal bytes
return equal identities, so the identity is a deterministic function of
(scope, bytes) alone. -/
theorem id_is_fnv1a :
    (∀ c data, (ctxId c data).2 = fnv1a (idSeed c) data) ∧
    (∀ c : Context, c.idStack = [] → idSeed c = hashInitial) ∧
    (∀ (c : Context) (t : Nat), c.idStack.getLast? = some t → idSeed c = t) ∧
    (∀ init b rest, fnv1a init (b :: rest) =
        fnv1a (((init ^^^ b) * fnvPrime) % uint64Mod) rest) ∧
    (∀ c₁ c₂ data, idSeed c₁ = idSeed c₂ → (ctxId c₁ data).2 = (ctxId c₂ data).2) := by
  refine ⟨fun c data => rfl, ?_, ?_, fun init b rest => rfl, ?_⟩
  · intro c h
    simp [idSeed, h]
  · intro c t h
    simp [idSeed, h]
  · intro c₁ c₂ data h
    simp [ctxId, ctxIdVal, h]

/-- Witness for C2: concrete seeds and contexts. -/
theorem id_is_fnv1a_witness :
    idSeed { idStack := [5] } = 5 ∧
      (ctxId { idStack := [7], hover := 1 } [2, 3]).2 = (ctxId { idStack := [7] } [2, 3]).2 := by
  exact ⟨id_is_fnv1a.2.2.1 { idStack := [5] } 5 rfl,
         id_is_fnv1a.2.2.2.2 { idStack := [7], hover := 1 } { idStack := [7] } [2, 3] rfl⟩

/-! ## C3: stack-balance assertions at frame end -/

/-- C3: `end` hits a fatal assertion (Go panic, modelled as `none`) when
any of the four scoped stacks is non-empty; when all four are empty the
assertions pass and (with no root containers registered this frame, so
that the jump-patch loop has nothing to check) `end` completes and
returns a context.  The non-empty-stack condition is never an error
value: the result type offers no recovery, only `none`. -/
theorem end_asserts_balanced_stacks (c : Context) :
    (¬(c.containerStack = [] ∧ c.clipStack = [] ∧ c.idStack = [] ∧ c.layoutStack = []) →
      endFrame c = none) ∧
    (c.containerStack = [] → c.clipStack = [] → c.idStack = [] → c.layoutStack = [] →
      c.rootList = [] → (endFrame c).isSome) := by
  constructor
  · intro hne
    unfold endFrame
    by_cases h1 : c.containerStack = []
    · by_cases h2 : c.clipStack = []
      · by_cases h3 : c.idStack = []
        · by_cases h4 : c.layoutStack = []
          · exact absurd ⟨h1, h2, h3, h4⟩ hne
          · simp [h1, h2, h3, h4]
        · simp [h1, h2, h3]
      · simp [h1, h2]
    · simp [h1]
  · intro h1 h2 h3 h4 hroot
    have hrl : (endInputResetPhase (endHoverRootPhase (endFocusPhase
        (endScrollPhase c)))).rootList = c.rootList := by
      unfold endInputResetPhase endHoverRootPhase endFocusPhase endScrollPhase
        setContainer bringToFront
      rcases hst : c.scrollTarget with _ | ci <;>
        rcases hnh : c.nextHoverRoot with _ | hr <;>
        dsimp only <;> (repeat' split) <;> rfl
    unfold endFrame
    simp only [h1, h2, h3, h4, List.length_nil, bne_self_eq_false, Bool.false_eq_true,
      if_false, ite_false]
    unfold endPatchPhase endSortPhase
    simp only [hrl, hroot, List.mergeSort_nil, List.map_nil, patchJumps, Option.isSome_some]

/-- Witness for C3: the initial context has all stacks empty and `end`
succeeds on it; a context with a pushed id stack makes `end` panic. -/
theorem end_asserts_balanced_stacks_witness :
    (endFrame {}).isSome ∧ endFrame { idStack := [3] } = none := by
  constructor
  · exact (end_asserts_balanced_stacks {}).2 rfl rfl rfl rfl rfl
  · exact (end_asserts_balanced_stacks { idStack := [3] }).1 (by simp)

/-! ## C10: scrollbar clamping -/

/-- C10: after `scrollbarVertical` (resp. `scrollbarHorizontal`) on a
container with body `b` and padded content size `cs`: if the content
overflows the axis (`cs` extent minus `b` extent positive, `b` extent
positive) the container's scroll offset on that axis lies in
`[0, cs extent - b extent]`; otherwise it is reset to exactly 0. -/
theorem scrollbar_scroll_clamped (c : Context) (ci : Nat) (b : GoRect) (cs : GoPoint)
    (hci : ci < c.containers.length) :
    (∀ c', scrollbarVertical c ci b cs = some c' →
      ((cs.y - b.Dy > 0 ∧ b.Dy > 0 →
          0 ≤ (c'.containers.getD ci default).Scroll.y ∧
          (c'.containers.getD ci default).Scroll.y ≤ cs.y - b.Dy) ∧
        (¬(cs.y - b.Dy > 0 ∧ b.Dy > 0) → (c'.containers.getD ci default).Scroll.y = 0))) ∧
    (∀ c', scrollbarHorizontal c ci b cs = some c' →
      ((cs.x - b.Dx > 0 ∧ b.Dx > 0 →
          0 ≤ (c'.containers.getD ci default).Scroll.x ∧
          (c'.containers.getD ci default).Scroll.x ≤ cs.x - b.Dx) ∧
        (¬(cs.x - b.Dx > 0 ∧ b.Dx > 0) → (c'.containers.getD ci default).Scroll.x = 0))) := by
  constructor
  · intro c' h
    unfold scrollbarVertical at h
    dsimp only [ctxId] at h
    by_cases hcond : cs.y - b.Dy > 0 ∧ b.Dy > 0
    · rw [if_pos (by simpa using hcond)] at h
      split at h
      · cases h
      · rename_i c₁ hup
        have hc₁ := strip_containers (updateControl_strip _ _ _ _ _ hup)
        split at h
        · cases h
        · rename_i mo hmo
          cases h
          refine ⟨fun _ => ?_, fun hn => absurd hcond hn⟩
          cases mo <;>
            simp only [if_true, if_false, Bool.false_eq_true, ite_false, ite_true,
              drawFrame, pushCommand, setContainer, hc₁] <;>
          · rw [getD_set_self c.containers ci _ default hci]
            exact clamp_bounds _ 0 (cs.y - b.Dy) (by omega)
    · rw [if_neg (by simpa using hcond)] at h
      cases h
      refine ⟨fun hp => absurd hp hcond, fun _ => ?_⟩
      simp only [setContainer]
      rw [getD_set_self c.containers ci _ default hci]
  · intro c' h
    unfold scrollbarHorizontal at h
    dsimp only [ctxId] at h
    by_cases hcond : cs.x - b.Dx > 0 ∧ b.Dx > 0
    · rw [if_pos (by simpa using hcond)] at h
      split at h
      · cases h
      · rename_i c₁ hup
        have hc₁ := strip_containers (updateControl_strip _ _ _ _ _ hup)
        split at h
        · cases h
        · rename_i mo hmo
          cases h
          refine ⟨fun _ => ?_, fun hn => absurd hcond hn⟩
          cases mo <;>
            simp only [if_true, if_false, Bool.false_eq_true, ite_false, ite_true,
              drawFrame, pushCommand, setContainer, hc₁] <;>
          · rw [getD_set_self c.containers ci _ default hci]
            exact clamp_bounds _ 0 (cs.x - b.Dx) (by omega)
    · rw [if_neg (by simpa using hcond)] at h
      cases h
      refine ⟨fun hp => absurd hp hcond, fun _ => ?_⟩
      simp only [setContainer]
      rw [getD_set_self c.containers ci _ default hci]

/-- Witness for C10: a concrete container with no overflowing content has
its scroll offsets reset to zero by both scrollbar passes. -/
theorem scrollbar_scroll_clamped_witness :
    ((({ containers := [{ Scroll := ⟨3, 4⟩ }] } : Context).containers.set 0
        { ({ containers := [{ Scroll := ⟨3, 4⟩ }] } : Context).containers.getD 0 default with
          Scroll := ⟨({ containers := [{ Scroll := ⟨3, 4⟩ }] } :
            Context).containers.getD 0 default |>.Scroll.x, 0⟩ }).getD 0 default).Scroll.y = 0 := by
  have h := (scrollbar_scroll_clamped { containers := [{ Scroll := ⟨3, 4⟩ }] } 0
      ⟨0, 0, 10, 10⟩ ⟨0, 0⟩ (by decide)).1
      (setContainer { containers := [{ Scroll := ⟨3, 4⟩ }] } 0
        { ({ containers := [{ Scroll := ⟨3, 4⟩ }] } : Context).containers.getD 0 default with
          Scroll := ⟨({ containers := [{ Scroll := ⟨3, 4⟩ }] } :
            Context).containers.getD 0 default |>.Scroll.x, 0⟩ }) rfl
  exact h.2 (by decide)

/-! ## C5: the closed option on `container` -/

/-- `List.set` with an element whose id matches the one already stored
leaves the mapped ids unchanged. -/
theorem map_id_set_same (items : List poolItem) (idx : Nat) (it : poolItem) (u : Nat)
    (h : items.get? idx = some it) :
    (items.set idx { it with lastUpdate := u }).map poolItem.id = items.map poolItem.id := by
  induction items generalizing idx with
  | nil => cases h
  | cons a l ih =>
    cases idx with
    | zero =>
      injection h with h
      subst h
      rfl
    | succ n =>
      have h' : l.get? n = some it := h
      simp only [List.set, List.map_cons]
      rw [ih n h']

/-- `poolUpdate` only refreshes recency: the ids stored in the pool are
unchanged. -/
theorem poolUpdate_map_id (items : List poolItem) (idx tick : Nat) :
    (poolUpdate items idx tick).map poolItem.id = items.map poolItem.id := by
  unfold poolUpdate
  split
  · rfl
  · rename_i it hit
    exact map_id_set_same items idx it tick hit

/-- Counterexample for C5: a pooled container that is not open is still
returned (non-nil) by `container` under the closed flag; the claim says
nil must be returned in that case. -/
theorem container_closed_counterexample :
    container { tick := 1, containerPool := [⟨7, 0⟩], containers := [{ Open := false }] } 7
        OptClosed =
      some ({ tick := 1, containerPool := [⟨7, 0⟩], containers := [{ Open := false }] }, some 0) ∧
    (({ tick := 1, containerPool := [⟨7, 0⟩],
        containers := [{ Open := false }] } : Context).containers.getD 0 default).Open = false := by
  exact ⟨rfl, rfl⟩

/-- C5 (amended): with the closed flag set, `container` returns nil
exactly when no pooled container exists for the id; when a pooled entry
exists it is returned whether or not it is open (and when it is closed
the context is completely unchanged — in particular its recency is not
refreshed); no container is ever created under the closed flag (the
container table and the pool's stored ids are untouched). -/
theorem container_closed_flag (c : Context) (i opt : Nat) (hopt : opt &&& OptClosed ≠ 0) :
    ∃ c' r, container c i opt = some (c', r) ∧
      (r = none ↔ poolGet c.containerPool i = none) ∧
      (∀ idx, poolGet c.containerPool i = some idx → r = some idx) ∧
      c'.containers = c.containers ∧
      c'.containerPool.map poolItem.id = c.containerPool.map poolItem.id ∧
      (∀ idx, poolGet c.containerPool i = some idx →
        (c.containers.getD idx default).Open = false → c' = c) := by
  have hcl : optUnset opt OptClosed = false := by simpa [optUnset] using hopt
  unfold container
  rcases hpg : poolGet c.containerPool i with _ | idx
  · simp only [hpg]
    rw [if_pos (by simpa using hopt)]
    exact ⟨c, none, rfl, by simp, by simp, rfl, rfl, by simp⟩
  · simp only [hpg]
    by_cases hcond : ((c.containers.getD idx default).Open || optUnset opt OptClosed) = true
    · rw [if_pos hcond]
      refine ⟨_, some idx, rfl, by simp, fun j hj => by cases hj; rfl, rfl,
        poolUpdate_map_id _ _ _, ?_⟩
      intro j hj hfalse
      cases hj
      simp only [hcl, Bool.or_false] at hcond
      rw [hfalse] at hcond
      cases hcond
    · rw [if_neg hcond]
      exact ⟨c, some idx, rfl, by simp, fun j hj => by cases hj; rfl, rfl, rfl,
        fun _ _ _ => rfl⟩

/-- Witness for C5: the empty context has no pooled container, so the
closed flag yields a nil result. -/
theorem container_closed_flag_witness :
    ∃ c' r, container ({} : Context) 5 OptClosed = some (c', r) ∧ r = none := by
  obtain ⟨c', r, heq, hiff, -⟩ := container_closed_flag {} 5 OptClosed (by decide)
  exact ⟨c', r, heq, hiff.mpr rfl⟩

/-! ## C6: the clip-stack containment invariant -/

/-- Go rectangle containment, characterised arithmetically. -/
theorem rectIn_iff (r s : GoRect) :
    (r.In s = true) ↔
      (r.minX ≥ r.maxX ∨ r.minY ≥ r.maxY) ∨
        (s.minX ≤ r.minX ∧ r.maxX ≤ s.maxX ∧ s.minY ≤ r.minY ∧ r.maxY ≤ s.maxY) := by
  unfold GoRect.In GoRect.Empty
  split <;> rename_i hemp <;>
    simp only [Bool.or_eq_true, decide_eq_true_eq, Bool.and_eq_true] at hemp ⊢
  · simp only [true_iff]
    exact Or.inl hemp
  · constructor
    · intro hb
      exact Or.inr ⟨hb.1.1.1, hb.1.1.2, hb.1.2, hb.2⟩
    · intro hb
      rcases hb with hemp2 | hb
      · exact absurd hemp2 hemp
      · exact ⟨⟨⟨hb.1, hb.2.1⟩, hb.2.2.1⟩, hb.2.2.2⟩

/-- Containment of Go rectangles is transitive. -/
theorem rectIn_trans (r s t : GoRect) (h1 : r.In s = true) (h2 : s.In t = true) :
    r.In t = true := by
  rw [rectIn_iff] at *
  omega

/-- The intersection pushed by `pushClipRect` is contained in the
previous top of the stack. -/
theorem intersect_in_right (r s : GoRect) : (r.Intersect s).In s = true := by
  rw [rectIn_iff]
  unfold GoRect.Intersect
  dsimp only
  split
  · exact Or.inl (Or.inl (by norm_num [GoRect.zero]))
  · exact Or.inr ⟨le_max_right _ _, min_le_right _ _, le_max_right _ _, min_le_right _ _⟩

/-- Counterexample for C6: the raw push of `unclippedRect` performed by
`window` (a clip-stack operation between begin and end) appends an
element that is neither the intersection of the supplied rectangle with
the previous top nor contained in the rectangle below it. -/
theorem window_clip_reset_counterexample :
    applyClipOps { clipStack := [⟨0, 0, 10, 10⟩] } [clipOp.pushUnclipped] =
      some { clipStack := [⟨0, 0, 10, 10⟩, unclippedRect] } ∧
    unclippedRect.In ⟨0, 0, 10, 10⟩ = false ∧
    unclippedRect ≠ GoRect.Intersect unclippedRect ⟨0, 0, 10, 10⟩ := by
  refine ⟨rfl, by decide, by decide⟩

/-- C6 (amended): `pushClipRect` pushes exactly the intersection of its
argument with the element on top at push time, and that intersection is
contained in the old top; `popClipRect` immediately after a push restores
the original context; consequently every sequence of `pushClipRect` /
`popClipRect` operations (the raw `unclippedRect` append of `window`
excluded — it deliberately resets clipping) preserves the containment
chain, so the top is contained in every rectangle below it within such a
segment. -/
theorem clip_stack_intersection :
    (∀ c r c', pushClipRect c r = some c' →
      ∃ last, clipRectTop c = some last ∧
        c'.clipStack = c.clipStack ++ [r.Intersect last] ∧
        (r.Intersect last).In last = true ∧
        popClipRect c' = some c) ∧
    (∀ ops c c', clipOp.pushUnclipped ∉ ops → applyClipOps c ops = some c' →
      clipChain c.clipStack → clipChain c'.clipStack) := by
  constructor
  · intro c r c' h
    unfold pushClipRect at h
    rcases htop : clipRectTop c with _ | last <;> rw [htop] at h
    · cases h
    · cases h
      refine ⟨last, rfl, rfl, intersect_in_right r last, ?_⟩
      unfold popClipRect
      split
      · rename_i hnil
        simp at hnil
      · simp [List.dropLast_concat]
  · intro ops
    induction ops with
    | nil =>
      intro c c' _ h hchain
      cases h
      exact hchain
    | cons op rest ih =>
      intro c c' hmem h hchain
      unfold applyClipOps at h
      have hrest : clipOp.pushUnclipped ∉ rest := fun hr => hmem (List.mem_cons_of_mem _ hr)
      cases op with
      | push r =>
        rcases htop : clipRectTop c with _ | last
        · rw [show applyClipOp c (clipOp.push r) = none from by
            simp [applyClipOp, pushClipRect, htop]] at h
          cases h
        · rw [show applyClipOp c (clipOp.push r) =
              some { c with clipStack := c.clipStack ++ [r.Intersect last] } from by
            simp [applyClipOp, pushClipRect, htop]] at h
          refine ih _ c' hrest h ?_
          unfold clipChain
          dsimp only
          rw [List.chain'_append]
          refine ⟨hchain, List.chain'_singleton _, ?_⟩
          intro x hx y hy
          unfold clipRectTop at htop
          rw [htop] at hx
          simp only [Option.mem_def, Option.some.injEq] at hx
          simp only [List.head?_cons, Option.mem_def, Option.some.injEq] at hy
          rw [← hx, ← hy]
          exact intersect_in_right r last
      | pushUnclipped => exact absurd (List.mem_cons_self _ _) hmem
      | pop =>
        rcases hcs : c.clipStack with _ | ⟨a, l⟩
        · rw [show applyClipOp c clipOp.pop = none from by
            simp [applyClipOp, popClipRect, hcs]] at h
          cases h
        · rw [show applyClipOp c clipOp.pop =
              some { c with clipStack := c.clipStack.dropLast } from by
            simp [applyClipOp, popClipRect, hcs]] at h
          refine ih _ c' hrest h ?_
          unfold clipChain at hchain ⊢
          dsimp only
          haveI : IsTrans GoRect (fun below above => above.In below = true) :=
            ⟨fun x y z hxy hyz => rectIn_trans z y x hyz hxy⟩
          exact hchain.sublist (List.dropLast_sublist _)

/-- Witness for C6: a concrete push onto a one-element clip stack. -/
theorem clip_stack_intersection_witness :
    ∃ last, clipRectTop { clipStack := [⟨0, 0, 10, 10⟩] } = some last ∧
      ({ clipStack := [⟨0, 0, 10, 10⟩, GoRect.Intersect ⟨2, 2, 20, 20⟩ ⟨0, 0, 10, 10⟩] } :
          Context).clipStack =
        ({ clipStack := [⟨0, 0, 10, 10⟩] } : Context).clipStack ++
          [GoRect.Intersect ⟨2, 2, 20, 20⟩ last] ∧
      (GoRect.Intersect ⟨2, 2, 20, 20⟩ last).In last = true ∧
      popClipRect { clipStack := [⟨0, 0, 10, 10⟩, GoRect.Intersect ⟨2, 2, 20, 20⟩ ⟨0, 0, 10, 10⟩] } =
        some { clipStack := [⟨0, 0, 10, 10⟩] } := by
  exact clip_stack_intersection.1 { clipStack := [⟨0, 0, 10, 10⟩] } ⟨2, 2, 20, 20⟩
    { clipStack := [⟨0, 0, 10, 10⟩, GoRect.Intersect ⟨2, 2, 20, 20⟩ ⟨0, 0, 10, 10⟩] } rfl

/-! ## C4: hover changes and the button-down state -/

/-- Counterexample for C4: with the left button held down (`mouseDown ≠ 0`,
no press this step) and the pointer outside the hovered control's
rectangle, `updateControl` clears the hover identity to zero — the claim
says hover is never changed while a button is down. -/
theorem hover_cleared_while_down_counterexample :
    updateControl { hover := 5, mouseDown := 1, mousePos := ⟨100, 100⟩ } 5 ⟨0, 0, 10, 10⟩ 0 =
      some { hover := 0, mouseDown := 1, mousePos := ⟨100, 100⟩ } ∧
    ({ hover := 5, mouseDown := 1, mousePos := ⟨100, 100⟩ } : Context).mouseDown ≠ 0 ∧
    ({ hover := 5, mouseDown := 1, mousePos := ⟨100, 100⟩ } : Context).hover = 5 ∧
    ({ hover := 0, mouseDown := 1, mousePos := ⟨100, 100⟩ } : Context).hover = 0 := by
  exact ⟨rfl, by decide, rfl, rfl⟩

/-- C4 (amended): while any button is held down, `updateControl` never
assigns the hover identity to a nonzero id; the hover can still change,
but only by being cleared to zero, and only when the control was the
hovered one, no press happened this step, and the pointer left it. -/
theorem updateControl_hover_amended (c c' : Context) (i : Nat) (r : GoRect) (opt : Nat)
    (hid : i ≠ 0) (hdown : c.mouseDown ≠ 0)
    (h : updateControl c i r opt = some c') :
    (c'.hover = c.hover ∨ (c'.hover = 0 ∧ c.hover = i ∧ c.mousePressed = 0)) ∧
    (∀ j, j ≠ 0 → c'.hover = j → c.hover = j) := by
  have h3 : (c.mouseDown == 0) = false := by simpa using hdown
  unfold updateControl SetFocus at h
  rw [if_neg (by simpa using hid)] at h
  rcases hmo : mouseOver c r with _ | mo <;> rw [hmo] at h
  · cases h
  · by_cases h1 : (c.focus == i) = true <;>
    by_cases h2 : (opt &&& OptNoInteract != 0) = true <;>
    by_cases h4 : (c.mousePressed != 0) = true <;>
    by_cases h5 : optUnset opt OptHoldFocus = true <;>
    by_cases h6 : (c.hover == i) = true <;>
    by_cases h7 : mo = true <;>
    simp only [h1, h2, h3, h4, h5, h6, h7, Bool.not_true, Bool.not_false, if_true, if_false,
      Bool.true_and, Bool.and_true, Bool.false_and, Bool.and_false, beq_self_eq_true,
      if_neg, Bool.false_eq_true, not_false_eq_true, ite_true, ite_false,
      Option.some.injEq] at h <;>
    (try subst h) <;>
    first
      | exact ⟨Or.inl rfl, fun j hj hj2 => hj2⟩
      | exact ⟨Or.inr ⟨rfl, by simpa using h6, by simpa using h4⟩,
          fun j hj hj2 => absurd hj2.symm hj⟩

/-- Witness for C4: the counterexample state, where hover 5 is cleared to
0 during a drag with the pointer off the control. -/
theorem updateControl_hover_amended_witness :
    (({ hover := 0, mouseDown := 1, mousePos := ⟨100, 100⟩ } : Context).hover =
        ({ hover := 5, mouseDown := 1, mousePos := ⟨100, 100⟩ } : Context).hover ∨
      (({ hover := 0, mouseDown := 1, mousePos := ⟨100, 100⟩ } : Context).hover = 0 ∧
        ({ hover := 5, mouseDown := 1, mousePos := ⟨100, 100⟩ } : Context).hover = 5 ∧
        ({ hover := 5, mouseDown := 1, mousePos := ⟨100, 100⟩ } : Context).mousePressed = 0)) ∧
    (∀ j, j ≠ 0 →
      ({ hover := 0, mouseDown := 1, mousePos := ⟨100, 100⟩ } : Context).hover = j →
      ({ hover := 5, mouseDown := 1, mousePos := ⟨100, 100⟩ } : Context).hover = j) :=
  updateControl_hover_amended { hover := 5, mouseDown := 1, mousePos := ⟨100, 100⟩ }
    { hover := 0, mouseDown := 1, mousePos := ⟨100, 100⟩ } 5 ⟨0, 0, 10, 10⟩ 0
    (by decide) (by decide) rfl

/-! ## C9: text boxes force the hold-focus option -/

/-- Forcing `OptHoldFocus` by bitwise or always sets the bit, whatever
options the caller supplied. -/
theorem or_holdFocus_set (opt : Nat) : optUnset (opt ||| OptHoldFocus) OptHoldFocus = false := by
  unfold optUnset OptHoldFocus
  simp only [beq_eq_false_iff_ne, ne_eq]
  intro hc
  have h8 := congrArg (fun n => n.testBit 8) hc
  simp at h8
  have ht : Nat.testBit 256 8 = true := by decide
  simp [ht] at h8

/-- A focused control keeps its focus through `updateControl` when no
press happened this step and the release-clear branch is disabled by the
hold-focus bit. -/
theorem updateControl_keeps_focus (c c₁ : Context) (i : Nat) (r : GoRect) (opt : Nat)
    (h : updateControl c i r opt = some c₁)
    (hf : c.focus = i) (hp : c.mousePressed = 0)
    (hh : optUnset opt OptHoldFocus = false) : c₁.focus = i := by
  have h1 : (c.focus == i) = true := by simpa using hf
  have h4 : (c.mousePressed != 0) = false := by simpa using hp
  unfold updateControl SetFocus at h
  split at h
  · cases h
    exact hf
  · rcases hmo : mouseOver c r with _ | mo <;> rw [hmo] at h
    · cases h
    · by_cases h2 : (opt &&& OptNoInteract != 0) = true <;>
      by_cases h3 : (c.mouseDown == 0) = true <;>
      by_cases h6 : (c.hover == i) = true <;>
      by_cases h7 : mo = true <;>
      simp only [h1, h2, h3, h4, h6, h7, hh, Bool.not_true, Bool.not_false, if_true, if_false,
        Bool.true_and, Bool.and_true, Bool.false_and, Bool.and_false, beq_self_eq_true,
        Bool.false_eq_true, not_false_eq_true, ite_true, ite_false,
        Option.some.injEq] at h <;>
      (try subst h) <;> exact hf

/-- `pushClipRect` never changes the focus. -/
theorem pushClipRect_focus (c c' : Context) (r : GoRect) (h : pushClipRect c r = some c') :
    c'.focus = c.focus := by
  unfold pushClipRect at h
  split at h
  · cases h
  · cases h
    rfl

/-- `popClipRect` never changes the focus. -/
theorem popClipRect_focus (c c' : Context) (h : popClipRect c = some c') :
    c'.focus = c.focus := by
  unfold popClipRect at h
  split at h
  · cases h
  · cases h
    rfl

/-- `drawControlFrame` never changes the focus. -/
theorem drawControlFrame_focus (c : Context) (i : Nat) (r : GoRect) (col opt : Nat) :
    (drawControlFrame c i r col opt).focus = c.focus := by
  unfold drawControlFrame drawFrame pushCommand
  split <;> rfl

/-- `drawControlText` never changes the focus. -/
theorem drawControlText_focus (c c' : Context) (str : List Char) (r : GoRect) (col opt : Nat)
    (h : drawControlText c str r col opt = some c') : c'.focus = c.focus := by
  unfold drawControlText at h
  split at h
  · cases h
  · rename_i c₁ hpc
    rw [popClipRect_focus _ _ h]
    exact pushClipRect_focus c c₁ r hpc

/-- The context component of the interaction block is unchanged when the
return key was not pressed. -/
theorem textBoxInteraction_fst (c : Context) (buf : List Char) (l : Nat)
    (h : (c.keyPressed &&& keyReturn != 0) = false) :
    (textBoxInteraction c buf l).1 = c := by
  unfold textBoxInteraction
  dsimp only
  rw [if_neg (by simp [h])]

/-- `textBoxDraw` never changes the focus. -/
theorem textBoxDraw_focus (c c' : Context) (buf : List Char) (i : Nat) (r : GoRect) (opt : Nat)
    (h : textBoxDraw c buf i r opt = some c') : c'.focus = c.focus := by
  unfold textBoxDraw at h
  dsimp only at h
  split at h
  · split at h
    · cases h
    · rename_i c₁ hpc
      rw [popClipRect_focus _ _ h]
      exact (pushClipRect_focus (drawControlFrame c i r 3 opt) c₁ r hpc).trans
        (drawControlFrame_focus c i r 3 opt)
  · exact (drawControlText_focus _ _ _ _ _ _ h).trans (drawControlFrame_focus c i r 3 opt)

/-- C9: `textBoxRaw` passes its options to `updateControl` with the
hold-focus bit forced on (so the release-clear branch is disabled for
every caller option), and consequently a focused text box keeps its
focus through any step with no mouse press and no return key — in
particular a mere button release never unfocuses it. -/
theorem textBoxRaw_holds_focus :
    (∀ opt, optUnset (opt ||| OptHoldFocus) OptHoldFocus = false) ∧
    (∀ c buf i r opt c' buf' res,
      textBoxRaw c buf i r opt = some (c', buf', res) →
      c.focus = i → c.mousePressed = 0 → c.keyPressed &&& keyReturn = 0 →
      c'.focus = i) := by
  refine ⟨or_holdFocus_set, ?_⟩
  intro c buf i r opt c' buf' res h hf hp hr
  unfold textBoxRaw at h
  rcases hup : updateControl c i r (opt ||| OptHoldFocus) with _ | c₁ <;> rw [hup] at h
  · cases h
  · have hstrip := updateControl_strip _ _ _ _ _ hup
    have hf₁ : c₁.focus = i :=
      updateControl_keeps_focus _ _ _ _ _ hup hf hp (or_holdFocus_set opt)
    have hkey : (c₁.keyPressed &&& keyReturn != 0) = false := by
      rw [strip_keyPressed hstrip]
      simpa using hr
    dsimp only at h
    rw [if_pos (by simpa using hf₁), textBoxInteraction_fst _ _ _ hkey] at h
    split at h
    · cases h
    · rename_i cd hdraw
      cases h
      exact (textBoxDraw_focus _ _ _ _ _ _ hdraw).trans hf₁

/-- Witness for C9: a concrete focused text box with the button just
released (down and pressed both zero) keeps its focus. -/
theorem textBoxRaw_holds_focus_witness :
    optUnset (0 ||| OptHoldFocus) OptHoldFocus = false ∧
    ∃ c' buf' res,
      textBoxRaw { focus := 5, clipStack := [unclippedRect] } [] 5 ⟨0, 0, 50, 20⟩ 0 =
        some (c', buf', res) ∧ c'.focus = 5 := by
  constructor
  · exact textBoxRaw_holds_focus.1 0
  · rcases hres : textBoxRaw { focus := 5, clipStack := [unclippedRect] } [] 5
        ⟨0, 0, 50, 20⟩ 0 with _ | ⟨c', buf', res⟩
    · exact absurd hres (by decide)
    · exact ⟨c', buf', res,  rfl,
        textBoxRaw_holds_focus.2 _ _ _ _ _ _ _ _ hres rfl rfl rfl⟩

/-! ## Totality lemmas: no panic with a non-empty clip stack -/

theorem getLast?_some_of_ne_nil {α : Type} (l : List α) (h : l ≠ []) :
    ∃ a, l.getLast? = some a := by
  rcases hl : l.getLast? with _ | a
  · exact absurd (List.getLast?_eq_none_iff.mp hl) h
  · exact ⟨a, rfl⟩

theorem strip_clipStack {c c' : Context} (h : stripInteraction c' = stripInteraction c) :
    c'.clipStack = c.clipStack := by
  rw [show c'.clipStack = (stripInteraction c').clipStack from rfl, h]; rfl

theorem mouseOver_isSome (c : Context) (r : GoRect) (h : c.clipStack ≠ []) :
    (mouseOver c r).isSome := by
  unfold mouseOver
  split
  · simp
  · obtain ⟨last, hl⟩ := getLast?_some_of_ne_nil _ h
    rw [show clipRectTop c = some last from hl]
    simp

theorem updateControl_total (c : Context) (i : Nat) (r : GoRect) (opt : Nat)
    (h : c.clipStack ≠ []) : (updateControl c i r opt).isSome := by
  unfold updateControl SetFocus
  split
  · simp
  · rcases hmo : mouseOver c r with _ | mo
    · exact absurd hmo (Option.isSome_iff_ne_none.mp (mouseOver_isSome c r h))
    · by_cases h1 : (c.focus == i) = true <;>
      by_cases h2 : (opt &&& OptNoInteract != 0) = true <;>
      by_cases h3 : (c.mouseDown == 0) = true <;>
      by_cases h4 : (c.mousePressed != 0) = true <;>
      by_cases h5 : optUnset opt OptHoldFocus = true <;>
      by_cases h6 : (c.hover == i) = true <;>
      by_cases h7 : mo = true <;>
      simp only [hmo, h1, h2, h3, h4, h5, h6, h7, Bool.not_true, Bool.not_false, if_true,
        if_false, Bool.true_and, Bool.and_true, Bool.false_and, Bool.and_false,
        beq_self_eq_true, Bool.false_eq_true, not_false_eq_true, ite_true, ite_false,
        Option.isSome_some]

theorem drawControlFrame_clipStack (c : Context) (i : Nat) (r : GoRect) (col opt : Nat) :
    (drawControlFrame c i r col opt).clipStack = c.clipStack := by
  unfold drawControlFrame drawFrame pushCommand
  split <;> rfl

theorem pushClipRect_some_of (c : Context) (r : GoRect) (h : c.clipStack ≠ []) :
    ∃ last, clipRectTop c = some last ∧
      pushClipRect c r = some { c with clipStack := c.clipStack ++ [r.Intersect last] } := by
  obtain ⟨last, hl⟩ := getLast?_some_of_ne_nil _ h
  refine ⟨last, hl, ?_⟩
  unfold pushClipRect
  rw [show clipRectTop c = some last from hl]

theorem popClipRect_some_of (c : Context) (h : c.clipStack ≠ []) :
    popClipRect c = some { c with clipStack := c.clipStack.dropLast } := by
  unfold popClipRect
  split
  · rename_i heq
    exact absurd heq h
  · rfl

theorem drawControlText_total (c : Context) (str : List Char) (r : GoRect) (col opt : Nat)
    (h : c.clipStack ≠ []) : (drawControlText c str r col opt).isSome := by
  obtain ⟨last, hl, hpush⟩ := pushClipRect_some_of c r h
  unfold drawControlText
  simp only [hpush]
  rw [popClipRect_some_of _ (by simp [drawText, pushCommand])]
  simp

theorem textBoxDraw_total (c : Context) (buf : List Char) (i : Nat) (r : GoRect) (opt : Nat)
    (h : c.clipStack ≠ []) : (textBoxDraw c buf i r opt).isSome := by
  have hdc : (drawControlFrame c i r 3 opt).clipStack ≠ [] := by
    rw [drawControlFrame_clipStack]; exact h
  unfold textBoxDraw
  dsimp only
  split
  · obtain ⟨last, hl, hpush⟩ := pushClipRect_some_of (drawControlFrame c i r 3 opt) r hdc
    simp only [hpush]
    rw [popClipRect_some_of _ (by simp [drawRect, drawText, pushCommand])]
    simp
  · exact drawControlText_total _ _ _ _ _ hdc

theorem textBoxInteraction_fst_clipStack (c : Context) (buf : List Char) (l : Nat) :
    (textBoxInteraction c buf l).1.clipStack = c.clipStack := by
  unfold textBoxInteraction SetFocus
  dsimp only
  split <;> rfl

theorem textBoxRaw_total (c : Context) (buf : List Char) (i : Nat) (r : GoRect) (opt : Nat)
    (h : c.clipStack ≠ []) : (textBoxRaw c buf i r opt).isSome := by
  unfold textBoxRaw
  rcases hup : updateControl c i r (opt ||| OptHoldFocus) with _ | c₁
  · exact absurd hup (Option.isSome_iff_ne_none.mp (updateControl_total c i r _ h))
  · have hc₁ : c₁.clipStack = c.clipStack := strip_clipStack (updateControl_strip _ _ _ _ _ hup)
    dsimp only
    have hgen : ∀ t : Context × List Char × Nat, t.1.clipStack ≠ [] →
        (match textBoxDraw t.1 t.2.1 i r opt with
          | none => none
          | some cd => some (cd, t.2.1, t.2.2) : Option (Context × List Char × Nat)).isSome := by
      intro t htc
      rcases hd : textBoxDraw t.1 t.2.1 i r opt with _ | cd
      · exact absurd hd (Option.isSome_iff_ne_none.mp (textBoxDraw_total _ _ _ _ _ htc))
      · simp
    refine hgen _ ?_
    split
    · rw [textBoxInteraction_fst_clipStack, hc₁]
      exact h
    · dsimp only
      rw [hc₁]
      exact h

/-! ## C8: parse failure in the number text box -/

/-- C8: when the number box is in edit mode (after the optional
shift-click entry step, whose outcome is `c₀`) and the frame commits the
edit — the inner text box reported a submit, or the box no longer has
focus after it ran — while the committed buffer does not parse (`parse`
fails on it), the call returns normally (no halt, no error value) and
writes the default zero into the bound value. -/
theorem numberTextBox_parse_failure (fmtReal : ℚ → List Char) (parse : List Char → Option ℚ)
    (c c₀ cₜ : Context) (v : ℚ) (i : Nat) (r : GoRect) (bufₜ : List Char) (resₜ : Nat)
    (hc0 : (if c.mousePressed == mouseLeft && c.keyDown &&& keyShift != 0 && c.hover == i then
        { c with numberEdit := i, numberEditBuf := fmtReal v } else c) = c₀)
    (hedit : (c₀.numberEdit == i) = true)
    (htb : textBoxRaw c₀ c₀.numberEditBuf i r 0 = some (cₜ, bufₜ, resₜ))
    (hcommit : (resₜ &&& ResponseSubmit != 0 ||
        ({ cₜ with numberEditBuf := bufₜ } : Context).focus != i) = true)
    (hparse : parse bufₜ = none) :
    numberTextBox fmtReal parse c v i r =
      some ({ cₜ with numberEditBuf := bufₜ, numberEdit := 0 }, 0, true) := by
  unfold numberTextBox
  by_cases hc1 : (c.mousePressed == mouseLeft && c.keyDown &&& keyShift != 0 &&
      c.hover == i) = true
  · rw [if_pos hc1] at hc0 ⊢
    rw [hc0, if_pos hedit, htb]
    dsimp only
    rw [if_pos hcommit]
    have hp' : parse ({ cₜ with numberEditBuf := bufₜ } : Context).numberEditBuf = none := hparse
    rw [hp']
  · rw [if_neg hc1] at hc0 ⊢
    rw [hc0, if_pos hedit, htb]
    dsimp only
    rw [if_pos hcommit]
    have hp' : parse ({ cₜ with numberEditBuf := bufₜ } : Context).numberEditBuf = none := hparse
    rw [hp']

/-- Witness for C8: a number box in edit mode that is not focused (so the
edit commits this step) with a buffer that parses to nothing returns
normally and writes zero into the bound value. -/
theorem numberTextBox_parse_failure_witness :
    ∃ cT bufT resT,
      textBoxRaw { numberEdit := 5, clipStack := [unclippedRect] } [] 5 ⟨0, 0, 50, 20⟩ 0 =
        some (cT, bufT, resT) ∧
      (resT &&& ResponseSubmit != 0 ||
        ({ cT with numberEditBuf := bufT } : Context).focus != 5) = true ∧
      numberTextBox (fun _ => []) (fun _ => none)
          { numberEdit := 5, clipStack := [unclippedRect] } 3 5 ⟨0, 0, 50, 20⟩ =
        some ({ cT with numberEditBuf := bufT, numberEdit := 0 }, 0, true) := by
  refine ⟨_, _, _, rfl, by decide, ?_⟩
  exact numberTextBox_parse_failure (fun _ => []) (fun _ => none)
    { numberEdit := 5, clipStack := [unclippedRect] } _ _ 3 5 ⟨0, 0, 50, 20⟩ _ _
    rfl rfl rfl (by decide) rfl

/-! ## C7: the slider's normal mode -/

/-- `numberTextBox` leaves the context alone and reports "not handled"
when the shift-click condition fails and the widget is not in edit
mode. -/
theorem numberTextBox_skip (fmtReal : ℚ → List Char) (parse : List Char → Option ℚ)
    (c : Context) (v : ℚ) (i : Nat) (r : GoRect)
    (h1 : (c.mousePressed == mouseLeft && c.keyDown &&& keyShift != 0 && c.hover == i) = false)
    (h2 : (c.numberEdit == i) = false) :
    numberTextBox fmtReal parse c v i r = some (c, v, false) := by
  have h1' : ¬((c.mousePressed == mouseLeft && c.keyDown &&& keyShift != 0 &&
      c.hover == i) = true) := by simp [h1]
  have h2' : ¬((c.numberEdit == i) = true) := by simp [h2]
  unfold numberTextBox
  rw [if_neg h1', if_neg h2']

/-- `sliderDraw` cannot panic when the clip stack is non-empty. -/
theorem sliderDraw_total (c : Context) (i : Nat) (v low high : ℚ) (fmtSlider : ℚ → List Char)
    (r : GoRect) (opt : Nat) (h : c.clipStack ≠ []) :
    (sliderDraw c i v low high fmtSlider r opt).isSome := by
  unfold sliderDraw
  dsimp only
  refine drawControlText_total _ _ _ _ _ ?_
  rw [drawControlFrame_clipStack, drawControlFrame_clipStack]
  exact h

/-- C7: a `SliderEx` call that takes the normal (non-text-edit) path,
with `low ≤ high`: the stored value on return lies in `[low, high]`;
when (after the control update) the slider is focused and the left
button is down or pressed, the stored value is `sliderStepped` — the
pointer-derived value, rounded to the nearest multiple of `step` when
`step ≠ 0` — clamped to `[low, high]`; and the change response bit is
set exactly when the stored value differs from its value at entry. -/
theorem sliderEx_normal (fmtReal : ℚ → List Char) (parse : List Char → Option ℚ)
    (fmtSlider : ℚ → List Char) (addr : List Nat) (c : Context)
    (value low high step : ℚ) (r : GoRect) (opt : Nat) (c₁ : Context)
    (hlh : low ≤ high)
    (hpath1 : (c.mousePressed == mouseLeft && c.keyDown &&& keyShift != 0 &&
      c.hover == ctxIdVal c addr) = false)
    (hpath2 : (c.numberEdit == ctxIdVal c addr) = false)
    (hclip : c.clipStack ≠ [])
    (hup : updateControl { c with LastID := ctxIdVal c addr } (ctxIdVal c addr) r opt =
      some c₁) :
    ∃ c₂ v' res,
      SliderEx fmtReal parse fmtSlider addr c value low high step r opt =
        some (c₂, v', res) ∧
      low ≤ v' ∧ v' ≤ high ∧
      ((res &&& ResponseChange ≠ 0) ↔ v' ≠ value) ∧
      ((c₁.focus = ctxIdVal c addr ∧ (c₁.mouseDown ||| c₁.mousePressed) = mouseLeft) →
        v' = clampF (sliderStepped c₁ r low high step) low high) := by
  have hstrip := updateControl_strip _ _ _ _ _ hup
  have hclip' := strip_clipStack hstrip
  have hc₁clip : c₁.clipStack = c.clipStack := hclip'
  unfold SliderEx
  dsimp only [ctxId]
  rw [numberTextBox_skip fmtReal parse _ value (ctxIdVal c addr) r (by exact hpath1)
    (by exact hpath2)]
  dsimp only
  rw [hup]
  dsimp only
  by_cases hfoc : (c₁.focus == ctxIdVal c addr &&
      (c₁.mouseDown ||| c₁.mousePressed) == mouseLeft) = true
  · rw [if_pos hfoc]
    by_cases hch : value ≠ clampF (sliderStepped c₁ r low high step) low high
    · rw [if_pos hch]
      rcases hdct : sliderDraw c₁ (ctxIdVal c addr)
          (clampF (sliderStepped c₁ r low high step) low high) low high fmtSlider r opt
          with _ | cf
      · exact absurd hdct (Option.isSome_iff_ne_none.mp
          (sliderDraw_total _ _ _ _ _ _ _ _ (hc₁clip ▸ hclip)))
      · simp only [hdct]
        refine ⟨cf, _, _, rfl, (clampF_bounds _ low high hlh).1,
          (clampF_bounds _ low high hlh).2, ?_, fun _ => rfl⟩
        exact iff_of_true (by decide) (Ne.symm hch)
    · rw [if_neg hch]
      have hveq : value = clampF (sliderStepped c₁ r low high step) low high := not_not.mp hch
      rcases hdct : sliderDraw c₁ (ctxIdVal c addr)
          (clampF (sliderStepped c₁ r low high step) low high) low high fmtSlider r opt
          with _ | cf
      · exact absurd hdct (Option.isSome_iff_ne_none.mp
          (sliderDraw_total _ _ _ _ _ _ _ _ (hc₁clip ▸ hclip)))
      · simp only [hdct]
        refine ⟨cf, _, _, rfl, (clampF_bounds _ low high hlh).1,
          (clampF_bounds _ low high hlh).2, ?_, fun _ => rfl⟩
        exact iff_of_false (by decide) (fun hne => hne hveq.symm)
  · rw [if_neg hfoc]
    by_cases hch : value ≠ clampF value low high
    · rw [if_pos hch]
      rcases hdct : sliderDraw c₁ (ctxIdVal c addr) (clampF value low high) low high
          fmtSlider r opt with _ | cf
      · exact absurd hdct (Option.isSome_iff_ne_none.mp
          (sliderDraw_total _ _ _ _ _ _ _ _ (hc₁clip ▸ hclip)))
      · simp only [hdct]
        refine ⟨cf, _, _, rfl, (clampF_bounds _ low high hlh).1,
          (clampF_bounds _ low high hlh).2, ?_, ?_⟩
        · exact iff_of_true (by decide) (Ne.symm hch)
        · rintro ⟨hf, hm⟩
          exact absurd (by simp [hf, hm]) hfoc
    · rw [if_neg hch]
      have hveq : value = clampF value low high := not_not.mp hch
      rcases hdct : sliderDraw c₁ (ctxIdVal c addr) (clampF value low high) low high
          fmtSlider r opt with _ | cf
      · exact absurd hdct (Option.isSome_iff_ne_none.mp
          (sliderDraw_total _ _ _ _ _ _ _ _ (hc₁clip ▸ hclip)))
      · simp only [hdct]
        refine ⟨cf, _, _, rfl, (clampF_bounds _ low high hlh).1,
          (clampF_bounds _ low high hlh).2, ?_, ?_⟩
        · exact iff_of_false (by decide) (fun hne => hne hveq.symm)
        · rintro ⟨hf, hm⟩
          exact absurd (by simp [hf, hm]) hfoc

/-- Witness for C7: a concrete slider bound to 5 with range [0,10] and
step 1 on the normal path. -/
theorem sliderEx_normal_witness :
    ∃ c₂ v' res,
      SliderEx (fun _ => []) (fun _ => none) (fun _ => []) [1]
          { clipStack := [unclippedRect] } 5 0 10 1 ⟨0, 0, 10, 10⟩ 0 = some (c₂, v', res) ∧
      (0 : ℚ) ≤ v' ∧ v' ≤ 10 ∧
      ((res &&& ResponseChange ≠ 0) ↔ v' ≠ 5) ∧
      ((({ ({ clipStack := [unclippedRect] } : Context) with
            LastID := ctxIdVal { clipStack := [unclippedRect] } [1] } : Context).focus =
            ctxIdVal { clipStack := [unclippedRect] } [1] ∧
          (({ ({ clipStack := [unclippedRect] } : Context) with
            LastID := ctxIdVal { clipStack := [unclippedRect] } [1] } : Context).mouseDown |||
            ({ ({ clipStack := [unclippedRect] } : Context) with
              LastID := ctxIdVal { clipStack := [unclippedRect] } [1] } : Context).mousePressed) =
            mouseLeft) →
        v' = clampF
          (sliderStepped { ({ clipStack := [unclippedRect] } : Context) with
            LastID := ctxIdVal { clipStack := [unclippedRect] } [1] } ⟨0, 0, 10, 10⟩ 0 10 1)
          0 10) :=
  sliderEx_normal (fun _ => []) (fun _ => none) (fun _ => []) [1]
    { clipStack := [unclippedRect] } 5 0 10 1 ⟨0, 0, 10, 10⟩ 0
    { ({ clipStack := [unclippedRect] } : Context) with
      LastID := ctxIdVal { clipStack := [unclippedRect] } [1] }
    (by norm_num) (by decide) (by decide) (by simp) rfl

/-! ## C1: end-of-frame jump patching and z-order replay

Shared lemmas: the four phases before the sort preserve the command
list, the root list and every container's head/tail markers. -/

theorem setContainer_commandList (c : Context) (ci : Nat) (cnt : Container) :
    (setContainer c ci cnt).commandList = c.commandList := rfl

theorem phases_commandList (c : Context) :
    (endInputResetPhase (endHoverRootPhase (endFocusPhase (endScrollPhase c)))).commandList =
      c.commandList := by
  unfold endInputResetPhase endHoverRootPhase endFocusPhase endScrollPhase setContainer
    bringToFront
  rcases c.scrollTarget with _ | ci <;> rcases c.nextHoverRoot with _ | hr <;>
    dsimp only <;> (repeat' split) <;> rfl

theorem phases_rootList (c : Context) :
    (endInputResetPhase (endHoverRootPhase (endFocusPhase (endScrollPhase c)))).rootList =
      c.rootList := by
  unfold endInputResetPhase endHoverRootPhase endFocusPhase endScrollPhase setContainer
    bringToFront
  rcases c.scrollTarget with _ | ci <;> rcases c.nextHoverRoot with _ | hr <;>
    dsimp only <;> (repeat' split) <;> rfl

/-- Head/tail markers survive a `set` that only changes other fields. -/
theorem getD_set_headTail (l : List Container) (ci : Nat) (cnt : Container) (i : Nat)
    (hhead : cnt.HeadIdx = (l.getD ci default).HeadIdx)
    (htail : cnt.TailIdx = (l.getD ci default).TailIdx) :
    ((l.set ci cnt).getD i default).HeadIdx = (l.getD i default).HeadIdx ∧
      ((l.set ci cnt).getD i default).TailIdx = (l.getD i default).TailIdx := by
  by_cases hic : ci = i
  · subst hic
    by_cases hlt : ci < l.length
    · rw [getD_set_self _ _ _ _ hlt]
      exact ⟨hhead, htail⟩
    · rw [List.set_eq_of_length_le (by omega)]
      exact ⟨rfl, rfl⟩
  · simp [List.getD, List.getElem?_set_ne hic]

theorem phases_headTail (c : Context) (i : Nat) :
    (((endInputResetPhase (endHoverRootPhase (endFocusPhase
        (endScrollPhase c)))).containers.getD i default).HeadIdx =
      (c.containers.getD i default).HeadIdx) ∧
    (((endInputResetPhase (endHoverRootPhase (endFocusPhase
        (endScrollPhase c)))).containers.getD i default).TailIdx =
      (c.containers.getD i default).TailIdx) := by
  have h1 : ∀ c' : Context, (((endScrollPhase c').containers.getD i default).HeadIdx =
      (c'.containers.getD i default).HeadIdx) ∧
      (((endScrollPhase c').containers.getD i default).TailIdx =
      (c'.containers.getD i default).TailIdx) := by
    intro c'
    unfold endScrollPhase
    rcases c'.scrollTarget with _ | ci
    · exact ⟨rfl, rfl⟩
    · exact getD_set_headTail _ _ _ _ rfl rfl
  have h2 : ∀ c' : Context, ((endHoverRootPhase c').containers.getD i default).HeadIdx =
      (c'.containers.getD i default).HeadIdx ∧
      ((endHoverRootPhase c').containers.getD i default).TailIdx =
      (c'.containers.getD i default).TailIdx := by
    intro c'
    unfold endHoverRootPhase bringToFront
    rcases c'.nextHoverRoot with _ | hr
    · exact ⟨rfl, rfl⟩
    · dsimp only
      split
      · exact getD_set_headTail _ _ _ _ rfl rfl
      · exact ⟨rfl, rfl⟩
  have h3 : ∀ c' : Context, (endFocusPhase c').containers = c'.containers := by
    intro c'
    unfold endFocusPhase
    dsimp only
    split <;> rfl
  have h4 : ∀ c' : Context, (endInputResetPhase c').containers = c'.containers := fun _ => rfl
  constructor
  · rw [h4, (h2 _).1, h3]
    exact (h1 _).1
  · rw [h4, (h2 _).2, h3]
    exact (h1 _).2

theorem phases_containers_length (c : Context) :
    (endInputResetPhase (endHoverRootPhase (endFocusPhase
      (endScrollPhase c)))).containers.length = c.containers.length := by
  unfold endInputResetPhase endHoverRootPhase endFocusPhase endScrollPhase setContainer
    bringToFront
  rcases c.scrollTarget with _ | ci <;> rcases c.nextHoverRoot with _ | hr <;>
    dsimp only <;> (repeat' split) <;> simp [List.length_set]

/-! ### Characterising the jump-patch loop -/

theorem getD_at {α : Type} [Inhabited α] (l : List α) (j : Nat) (h : j < l.length) :
    l.getD j default = l.get ⟨j, h⟩ := by
  simp [List.getD, List.getElem?_eq_getElem h]

/-- `commandSetDst` succeeds inside bounds and performs a single-point
update of the destination index, preserving everything else. -/
theorem commandSetDst_some (cmds : List command) (idx : Int) (dst : Int)
    (h0 : 0 ≤ idx) (hlt : idx.toNat < cmds.length) :
    ∃ cmds', commandSetDst cmds idx dst = some cmds' ∧
      cmds'.length = cmds.length ∧
      (∀ j, (cmds'.getD j default).typ = (cmds.getD j default).typ) ∧
      (∀ j, j ≠ idx.toNat → (cmds'.getD j default).dstIdx = (cmds.getD j default).dstIdx) ∧
      (cmds'.getD idx.toNat default).dstIdx = dst := by
  refine ⟨cmds.set idx.toNat { cmds.get ⟨idx.toNat, hlt⟩ with dstIdx := dst }, ?_, ?_, ?_, ?_, ?_⟩
  · unfold commandSetDst
    rw [dif_pos ⟨h0, hlt⟩]
  · exact List.length_set ..
  · intro j
    by_cases hj : j = idx.toNat
    · subst hj
      rw [getD_set_self _ _ _ _ hlt, getD_at cmds idx.toNat hlt]
    · simp [List.getD, List.getElem?_set_ne (fun hc => hj hc.symm)]
  · intro j hj
    simp [List.getD, List.getElem?_set_ne (fun hc => hj hc.symm)]
  · rw [getD_set_self _ _ _ _ hlt]

/-- The loop tail `patchJumpsAux`: with all tail indices in bounds and
pairwise distinct, it succeeds; it preserves lengths and command tags and
every destination outside the tail positions, chains each container's
tail destination to the next container's head plus one, and sets the
last tail destination to `total`. -/
theorem patchJumpsAux_spec (total : Int) (roots : List Container) :
    ∀ (cmds : List command) (prev : Container),
    0 ≤ prev.TailIdx → prev.TailIdx.toNat < cmds.length →
    (∀ cnt ∈ roots, 0 ≤ cnt.TailIdx ∧ cnt.TailIdx.toNat < cmds.length) →
    (prev :: roots).Pairwise (fun a b => a.TailIdx.toNat ≠ b.TailIdx.toNat) →
    ∃ cmds', patchJumpsAux total cmds prev roots = some cmds' ∧
      cmds'.length = cmds.length ∧
      (∀ j, (cmds'.getD j default).typ = (cmds.getD j default).typ) ∧
      (∀ j, j ∉ (prev :: roots).map (fun cnt => cnt.TailIdx.toNat) →
        (cmds'.getD j default).dstIdx = (cmds.getD j default).dstIdx) ∧
      (prev :: roots).Chain' (fun a b =>
        (cmds'.getD a.TailIdx.toNat default).dstIdx = b.HeadIdx + 1) ∧
      (∀ lc, (prev :: roots).getLast? = some lc →
        (cmds'.getD lc.TailIdx.toNat default).dstIdx = total) := by
  induction roots with
  | nil =>
    intro cmds prev hp0 hplt _ _
    obtain ⟨cmds', heq, hlen, htyp, hdst, hat⟩ := commandSetDst_some cmds prev.TailIdx total hp0 hplt
    refine ⟨cmds', heq, hlen, htyp, ?_, List.chain'_singleton _, ?_⟩
    · intro j hj
      exact hdst j (by simpa using hj)
    · intro lc hlc
      simp only [List.getLast?_singleton, Option.some.injEq] at hlc
      subst hlc
      exact hat
  | cons cnt rest ih =>
    intro cmds prev hp0 hplt hroots hdist
    obtain ⟨cmds₁, heq₁, hlen₁, htyp₁, hdst₁, hat₁⟩ :=
      commandSetDst_some cmds prev.TailIdx (cnt.HeadIdx + 1) hp0 hplt
    have hcntb := hroots cnt (List.mem_cons_self _ _)
    obtain ⟨cmds', heq', hlen', htyp', hdst', hchain', hlast'⟩ :=
      ih cmds₁ cnt hcntb.1 (by rw [hlen₁]; exact hcntb.2)
        (fun x hx => ⟨(hroots x (List.mem_cons_of_mem _ hx)).1,
          by rw [hlen₁]; exact (hroots x (List.mem_cons_of_mem _ hx)).2⟩)
        (List.Pairwise.of_cons hdist)
    have hprevne : prev.TailIdx.toNat ∉ (cnt :: rest).map (fun x => x.TailIdx.toNat) := by
      intro hmem
      obtain ⟨x, hx, hxe⟩ := List.mem_map.mp hmem
      exact (List.rel_of_pairwise_cons hdist hx) hxe.symm
    refine ⟨cmds', ?_, hlen'.trans hlen₁, fun j => (htyp' j).trans (htyp₁ j), ?_, ?_, ?_⟩
    · simp only [patchJumpsAux, heq₁]
      exact heq'
    · intro j hj
      have hjrest : j ∉ (cnt :: rest).map (fun x => x.TailIdx.toNat) := by
        intro hc
        exact hj (by simpa using Or.inr (by simpa using hc))
      have hjprev : j ≠ prev.TailIdx.toNat := by
        intro hc
        exact hj (by simp [hc])
      exact (hdst' j hjrest).trans (hdst₁ j hjprev)
    · rw [List.chain'_cons]
      constructor
      · rw [hdst' _ hprevne]
        exact hat₁
      · exact hchain'
    · intro lc hlc
      rw [List.getLast?_cons_cons] at hlc
      exact hlast' lc hlc

/-- The whole jump-patch pass of `end`: on a non-empty z-sorted root list
whose head/tail markers are in bounds, pairwise disjoint ranges, and a
jump at index 0, it succeeds; the first command's destination becomes one
past the first root's head, consecutive tails chain to the next head plus
one, the last tail points at the buffer length, and all tags are
preserved. -/
theorem patchJumps_spec (cmds : List command) (r0 : Container) (rest : List Container)
    (hcmd0 : (cmds.getD 0 default).typ = commandJump) (hne : cmds ≠ [])
    (hsize : cmds.length ≤ commandListSize)
    (hbounds : ∀ cnt ∈ r0 :: rest, 0 ≤ cnt.HeadIdx ∧ cnt.HeadIdx < cnt.TailIdx ∧
      cnt.TailIdx < (cmds.length : Int))
    (hdist : (r0 :: rest).Pairwise (fun a b => a.TailIdx.toNat ≠ b.TailIdx.toNat)) :
    ∃ cmds', patchJumps cmds (r0 :: rest) = some cmds' ∧
      cmds'.length = cmds.length ∧
      (∀ j, (cmds'.getD j default).typ = (cmds.getD j default).typ) ∧
      (cmds'.getD 0 default).dstIdx = r0.HeadIdx + 1 ∧
      (r0 :: rest).Chain' (fun a b =>
        (cmds'.getD a.TailIdx.toNat default).dstIdx = b.HeadIdx + 1) ∧
      (∀ lc, (r0 :: rest).getLast? = some lc →
        (cmds'.getD lc.TailIdx.toNat default).dstIdx = cmds.length) := by
  have hlen0 : 0 < cmds.length := List.length_pos.mpr hne
  obtain ⟨cmd0, hhead⟩ : ∃ cmd0, cmds.head? = some cmd0 := by
    rcases cmds with _ | ⟨a, l⟩
    · exact absurd rfl hne
    · exact ⟨a, rfl⟩
  have hcmd0' : cmd0.typ = commandJump := by
    have hg0 : cmds.getD 0 default = cmd0 := by
      rcases cmds with _ | ⟨a, l⟩
      · cases hhead
      · injection hhead with hh
    rw [← hg0]
    exact hcmd0
  have hr0 := hbounds r0 (List.mem_cons_self _ _)
  have hr0size : r0.HeadIdx + 1 < (commandListSize : Int) := by
    have := hr0.2.1
    have := hr0.2.2
    omega
  -- the buffer with the patched entry jump
  have hset0 : ∀ j, j ≠ 0 →
      ((cmds.set 0 { cmd0 with dstIdx := r0.HeadIdx + 1 }).getD j default) =
        cmds.getD j default := by
    intro j hj
    simp [List.getD, List.getElem?_set_ne (fun hc => hj hc.symm)]
  have hset0len : (cmds.set 0 { cmd0 with dstIdx := r0.HeadIdx + 1 }).length = cmds.length :=
    List.length_set ..
  have htail_pos : ∀ cnt ∈ r0 :: rest, 0 < cnt.TailIdx.toNat := by
    intro cnt hc
    have := hbounds cnt hc
    omega
  obtain ⟨cmds', heq', hlen', htyp', hdst', hchain', hlast'⟩ :=
    patchJumpsAux_spec (cmds.length : Int) rest
      (cmds.set 0 { cmd0 with dstIdx := r0.HeadIdx + 1 }) r0
      (by have := hr0; omega)
      (by rw [hset0len]; have := hr0; omega)
      (fun x hx => ⟨by have := hbounds x (List.mem_cons_of_mem _ hx); omega,
        by rw [hset0len]; have := hbounds x (List.mem_cons_of_mem _ hx); omega⟩)
      hdist
  have htypall : ∀ j, (cmds'.getD j default).typ = (cmds.getD j default).typ := by
    intro j
    rw [htyp' j]
    by_cases hj : j = 0
    · subst hj
      rw [getD_set_self _ _ _ _ hlen0]
      have hg : cmds.getD 0 default = cmd0 := by
        rcases cmds with _ | ⟨a, l⟩
        · cases hhead
        · injection hhead with hh
      rw [hg]
    · rw [hset0 j hj]
  have hzero_notin : (0 : Nat) ∉ (r0 :: rest).map (fun cnt => cnt.TailIdx.toNat) := by
    intro hmem
    obtain ⟨x, hx, hxe⟩ := List.mem_map.mp hmem
    exact absurd hxe.symm (Nat.ne_of_lt (htail_pos x hx))
  refine ⟨cmds', ?_, hlen'.trans hset0len, htypall, ?_, hchain', hlast'⟩
  · simp only [patchJumps, hhead]
    rw [if_neg (by simp [hcmd0'])]
    rw [if_neg (not_not_intro hr0size)]
    exact heq'
  · rw [hdst' 0 hzero_notin, getD_set_self _ _ _ _ hlen0]

/-! ### Replay: jump-following visits each segment once -/

/-- A straight run of `n` non-jump commands from `s`, ended by the jump
at `s + n`, visits exactly `s, s+1, …, s+n-1` and continues at the
jump's destination with the remaining fuel. -/
theorem replay_run (cmds : List command) :
    ∀ (n s extra : Nat),
    (∀ j, s ≤ j → j < s + n → (cmds.getD j default).typ ≠ commandJump) →
    s + n < cmds.length →
    (cmds.getD (s + n) default).typ = commandJump →
    0 ≤ (cmds.getD (s + n) default).dstIdx →
    replayFrom cmds (n + 1 + extra) s =
      List.range' s n ++ replayFrom cmds extra (cmds.getD (s + n) default).dstIdx.toNat := by
  intro n
  induction n with
  | zero =>
    intro s extra hnj hlt htyp hdst
    rw [show 0 + 1 + extra = extra + 1 from by omega]
    rw [replayFrom]
    rw [dif_pos (by omega : s < cmds.length)]
    simp only [Nat.add_zero] at hlt htyp hdst ⊢
    rw [getD_at cmds s (by omega)] at htyp hdst
    simp only [htyp]
    rw [if_pos (by simp [commandJump])]
    rw [if_neg (by omega)]
    rw [List.range'_zero, List.nil_append]
    rw [getD_at cmds s (by omega)]
  | succ m ih =>
    intro s extra hnj hlt htyp hdst
    rw [show m + 1 + 1 + extra = (m + 1 + extra) + 1 from by omega]
    rw [replayFrom]
    rw [dif_pos (by omega : s < cmds.length)]
    have hs : (cmds.get ⟨s, by omega⟩).typ ≠ commandJump := by
      rw [← getD_at cmds s (by omega)]
      exact hnj s (le_refl s) (by omega)
    rw [if_neg (by simpa using hs)]
    rw [List.range'_succ, List.cons_append]
    congr 1
    have := ih (s + 1) extra
      (fun j hj1 hj2 => hnj j (by omega) (by omega))
      (by omega) (by rw [show s + 1 + m = s + (m + 1) from by omega]; exact htyp)
      (by rw [show s + 1 + m = s + (m + 1) from by omega]; exact hdst)
    rw [this]
    rw [show s + 1 + m = s + (m + 1) from by omega]

/-- Replaying the patched buffer from the first sorted container's entry
point visits each container's own commands once, in list order, and
stops at the buffer length. -/
theorem replay_segments (cmds : List command) :
    ∀ (rlist : List Container) (r : Container),
    (∀ cnt ∈ r :: rlist, 0 ≤ cnt.HeadIdx ∧ cnt.HeadIdx < cnt.TailIdx ∧
      cnt.TailIdx < (cmds.length : Int)) →
    (∀ cnt ∈ r :: rlist, (cmds.getD cnt.TailIdx.toNat default).typ = commandJump) →
    (∀ cnt ∈ r :: rlist, ∀ j, cnt.HeadIdx.toNat < j → j < cnt.TailIdx.toNat →
      (cmds.getD j default).typ ≠ commandJump) →
    (r :: rlist).Chain' (fun a b =>
      (cmds.getD a.TailIdx.toNat default).dstIdx = b.HeadIdx + 1) →
    (∀ lc, (r :: rlist).getLast? = some lc →
      (cmds.getD lc.TailIdx.toNat default).dstIdx = cmds.length) →
    replayFrom cmds (((r :: rlist).map segFuel).sum) (r.HeadIdx.toNat + 1) =
      ((r :: rlist).map segCmds).flatten := by
  intro rlist
  induction rlist with
  | nil =>
    intro r hb ht hi hc hl
    have hr := hb r (List.mem_cons_self _ _)
    have hrt := ht r (List.mem_cons_self _ _)
    have hrl := hl r (by simp)
    have hfuel : ((([r] : List Container).map segFuel).sum) =
        (r.TailIdx.toNat - (r.HeadIdx.toNat + 1)) + 1 + 0 := by
      simp [segFuel]
      omega
    rw [hfuel]
    have hidx : r.HeadIdx.toNat + 1 + (r.TailIdx.toNat - (r.HeadIdx.toNat + 1)) =
        r.TailIdx.toNat := by omega
    rw [replay_run cmds (r.TailIdx.toNat - (r.HeadIdx.toNat + 1)) (r.HeadIdx.toNat + 1) 0
      (fun j hj1 hj2 => hi r (List.mem_cons_self _ _) j (by omega) (by omega))
      (by rw [hidx]; omega)
      (by rw [hidx]; exact hrt)
      (by rw [hidx, hrl]; omega)]
    simp only [hidx, hrl]
    simp only [replayFrom]
    simp [segCmds]
  | cons r2 rlist ih =>
    intro r hb ht hi hc hl
    have hr := hb r (List.mem_cons_self _ _)
    have hr2 := hb r2 (List.mem_cons_of_mem _ (List.mem_cons_self _ _))
    have hrt := ht r (List.mem_cons_self _ _)
    have hchead : (cmds.getD r.TailIdx.toNat default).dstIdx = r2.HeadIdx + 1 :=
      (List.chain'_cons.mp hc).1
    have hfuel : (((r :: r2 :: rlist).map segFuel).sum) =
        (r.TailIdx.toNat - (r.HeadIdx.toNat + 1)) + 1 +
          (((r2 :: rlist).map segFuel).sum) := by
      simp [segFuel]
      omega
    rw [hfuel]
    have hidx : r.HeadIdx.toNat + 1 + (r.TailIdx.toNat - (r.HeadIdx.toNat + 1)) =
        r.TailIdx.toNat := by omega
    rw [replay_run cmds (r.TailIdx.toNat - (r.HeadIdx.toNat + 1)) (r.HeadIdx.toNat + 1)
      (((r2 :: rlist).map segFuel).sum)
      (fun j hj1 hj2 => hi r (List.mem_cons_self _ _) j (by omega) (by omega))
      (by rw [hidx]; omega)
      (by rw [hidx]; exact hrt)
      (by rw [hidx, hchead]; omega)]
    simp only [hidx, hchead]
    have htonat : (r2.HeadIdx + 1).toNat = r2.HeadIdx.toNat + 1 := by omega
    rw [htonat]
    rw [ih r2 (fun x hx => hb x (List.mem_cons_of_mem _ hx))
      (fun x hx => ht x (List.mem_cons_of_mem _ hx))
      (fun x hx => hi x (List.mem_cons_of_mem _ hx))
      ((List.chain'_cons.mp hc).2)
      (fun lc hlc => hl lc (by rw [List.getLast?_cons_cons]; exact hlc))]
    simp [segCmds]

theorem rootLe_trans (c : Context) (a b d : Nat) (h1 : rootLe c a b = true)
    (h2 : rootLe c b d = true) : rootLe c a d = true := by
  simp only [rootLe, decide_eq_true_eq] at *
  omega

theorem rootLe_total (c : Context) (a b : Nat) : (rootLe c a b || rootLe c b a) = true := by
  simp only [rootLe, Bool.or_eq_true, decide_eq_true_eq]
  omega

/-- C1: at frame end, with balanced stacks, a jump at index 0, and every
root container owning an in-bounds, pairwise-disjoint command range that
starts and ends with its head/tail jumps and contains no other jump:
`end` succeeds; the root list is stably re-ordered into a permutation
that is non-decreasing in z-index; the first command's destination is
patched to one past the lowest-z root's head jump, each root's tail jump
is patched to one past the next root's head jump, and the last root's
tail jump is patched to the command-list length; and replay by
jump-following from index 0 visits exactly each root container's own
commands once, in that z-order. -/
theorem end_patches_jumps_zorder (c : Context)
    (h1 : c.containerStack = []) (h2 : c.clipStack = []) (h3 : c.idStack = [])
    (h4 : c.layoutStack = [])
    (hrootne : c.rootList ≠ [])
    (hcne : c.commandList ≠ [])
    (hcmd0 : (c.commandList.getD 0 default).typ = commandJump)
    (hsize : c.commandList.length ≤ commandListSize)
    (hbounds : ∀ i ∈ c.rootList, 0 ≤ (c.containers.getD i default).HeadIdx ∧
      (c.containers.getD i default).HeadIdx < (c.containers.getD i default).TailIdx ∧
      (c.containers.getD i default).TailIdx < (c.commandList.length : Int))
    (htailjump : ∀ i ∈ c.rootList,
      (c.commandList.getD (c.containers.getD i default).TailIdx.toNat default).typ =
        commandJump)
    (hinterior : ∀ i ∈ c.rootList, ∀ j,
      (c.containers.getD i default).HeadIdx.toNat < j →
      j < (c.containers.getD i default).TailIdx.toNat →
      (c.commandList.getD j default).typ ≠ commandJump)
    (hdisj : c.rootList.Pairwise (fun a b =>
      (c.containers.getD a default).TailIdx < (c.containers.getD b default).HeadIdx ∨
      (c.containers.getD b default).TailIdx < (c.containers.getD a default).HeadIdx)) :
    ∃ c', endFrame c = some c' ∧
      c'.rootList.Perm c.rootList ∧
      (c'.rootList.map fun i => (c'.containers.getD i default).ZIndex).Pairwise (· ≤ ·) ∧
      c'.commandList.length = c.commandList.length ∧
      (∀ r0 rest, (c'.rootList.map fun i => c'.containers.getD i default) = r0 :: rest →
        (c'.commandList.getD 0 default).dstIdx = r0.HeadIdx + 1) ∧
      (c'.rootList.map fun i => c'.containers.getD i default).Chain' (fun a b =>
        (c'.commandList.getD a.TailIdx.toNat default).dstIdx = b.HeadIdx + 1) ∧
      (∀ lc, (c'.rootList.map fun i => c'.containers.getD i default).getLast? = some lc →
        (c'.commandList.getD lc.TailIdx.toNat default).dstIdx = c.commandList.length) ∧
      replayFrom c'.commandList
          (1 + (((c'.rootList.map fun i => c'.containers.getD i default).map segFuel).sum)) 0 =
        (((c'.rootList.map fun i => c'.containers.getD i default)).map segCmds).flatten := by
  classical
  set cM := endInputResetPhase (endHoverRootPhase (endFocusPhase (endScrollPhase c))) with hcMdef
  have hcmdM : cM.commandList = c.commandList := phases_commandList c
  have hrlM : cM.rootList = c.rootList := phases_rootList c
  have hht : ∀ i, ((cM.containers.getD i default).HeadIdx =
      (c.containers.getD i default).HeadIdx) ∧
      ((cM.containers.getD i default).TailIdx = (c.containers.getD i default).TailIdx) :=
    phases_headTail c
  have hsp : (cM.rootList.mergeSort (rootLe cM)).Perm c.rootList := by
    rw [← hrlM]
    exact List.mergeSort_perm _ _
  have hmemsort : ∀ i, i ∈ cM.rootList.mergeSort (rootLe cM) ↔ i ∈ c.rootList :=
    fun i => hsp.mem_iff
  -- transported per-index facts
  have hboundsM : ∀ i ∈ c.rootList, 0 ≤ (cM.containers.getD i default).HeadIdx ∧
      (cM.containers.getD i default).HeadIdx < (cM.containers.getD i default).TailIdx ∧
      (cM.containers.getD i default).TailIdx < (c.commandList.length : Int) := by
    intro i hi
    rw [(hht i).1, (hht i).2]
    exact hbounds i hi
  have htailjumpM : ∀ i ∈ c.rootList,
      (c.commandList.getD (cM.containers.getD i default).TailIdx.toNat default).typ =
        commandJump := by
    intro i hi
    rw [(hht i).2]
    exact htailjump i hi
  have hinteriorM : ∀ i ∈ c.rootList, ∀ j,
      (cM.containers.getD i default).HeadIdx.toNat < j →
      j < (cM.containers.getD i default).TailIdx.toNat →
      (c.commandList.getD j default).typ ≠ commandJump := by
    intro i hi j hj1 hj2
    rw [(hht i).1] at hj1
    rw [(hht i).2] at hj2
    exact hinterior i hi j hj1 hj2
  have hdistM : c.rootList.Pairwise (fun a b =>
      (cM.containers.getD a default).TailIdx.toNat ≠
        (cM.containers.getD b default).TailIdx.toNat) := by
    refine hdisj.imp_of_mem ?_
    intro a b ha hb hab
    have hba := hbounds a ha
    have hbb := hbounds b hb
    rw [(hht a).2, (hht b).2]
    omega
  have hdistSorted : (cM.rootList.mergeSort (rootLe cM)).Pairwise (fun a b =>
      (cM.containers.getD a default).TailIdx.toNat ≠
        (cM.containers.getD b default).TailIdx.toNat) := by
    refine (List.Perm.pairwise_iff ?_ hsp).mpr hdistM
    intro a b hab
    exact hab.symm
  rcases hs : cM.rootList.mergeSort (rootLe cM) with _ | ⟨i0, irest⟩
  · rw [hs] at hsp
    exact absurd hsp.symm.eq_nil hrootne
  · have hmem0 : i0 ∈ c.rootList := by
      rw [← hmemsort i0, hs]
      exact List.mem_cons_self _ _
    have hmemrest : ∀ i ∈ irest, i ∈ c.rootList := by
      intro i hi
      rw [← hmemsort i, hs]
      exact List.mem_cons_of_mem _ hi
    have hbR : ∀ cnt ∈ ((cM.containers.getD i0 default) ::
        irest.map fun i => cM.containers.getD i default),
        0 ≤ cnt.HeadIdx ∧ cnt.HeadIdx < cnt.TailIdx ∧
          cnt.TailIdx < (c.commandList.length : Int) := by
      intro cnt hcnt
      rcases List.mem_cons.mp hcnt with hcnt | hcnt
      · subst hcnt
        exact hboundsM i0 hmem0
      · obtain ⟨i, hi, hie⟩ := List.mem_map.mp hcnt
        subst hie
        exact hboundsM i (hmemrest i hi)
    have htR : ∀ cnt ∈ ((cM.containers.getD i0 default) ::
        irest.map fun i => cM.containers.getD i default),
        (c.commandList.getD cnt.TailIdx.toNat default).typ = commandJump := by
      intro cnt hcnt
      rcases List.mem_cons.mp hcnt with hcnt | hcnt
      · subst hcnt
        exact htailjumpM i0 hmem0
      · obtain ⟨i, hi, hie⟩ := List.mem_map.mp hcnt
        subst hie
        exact htailjumpM i (hmemrest i hi)
    have hiR : ∀ cnt ∈ ((cM.containers.getD i0 default) ::
        irest.map fun i => cM.containers.getD i default), ∀ j, cnt.HeadIdx.toNat < j →
        j < cnt.TailIdx.toNat → (c.commandList.getD j default).typ ≠ commandJump := by
      intro cnt hcnt
      rcases List.mem_cons.mp hcnt with hcnt | hcnt
      · subst hcnt
        exact hinteriorM i0 hmem0
      · obtain ⟨i, hi, hie⟩ := List.mem_map.mp hcnt
        subst hie
        exact hinteriorM i (hmemrest i hi)
    obtain ⟨cmds', heq', hlen', htypall, hdst0, hchain, hlastp⟩ :=
      patchJumps_spec c.commandList (cM.containers.getD i0 default)
        (irest.map fun i => cM.containers.getD i default)
        hcmd0 hcne hsize hbR
        (by
          have hmap : ((cM.containers.getD i0 default) ::
              irest.map fun i => cM.containers.getD i default) =
              (i0 :: irest).map fun i => cM.containers.getD i default := rfl
          rw [hmap, ← hs]
          refine List.pairwise_map.mpr ?_
          exact hdistSorted)
    have hpj : patchJumps (endSortPhase cM).commandList
        ((endSortPhase cM).rootList.map fun i => (endSortPhase cM).containers.getD i default) =
        some cmds' := by
      show patchJumps cM.commandList
        ((cM.rootList.mergeSort (rootLe cM)).map fun i => cM.containers.getD i default) =
          some cmds'
      rw [hcmdM, hs, List.map_cons]
      exact heq'
    have hend : endFrame c = some { endSortPhase cM with commandList := cmds' } := by
      have hframe : endFrame c = endPatchPhase (endSortPhase cM) := by
        unfold endFrame
        simp only [h1, h2, h3, h4, List.length_nil, bne_self_eq_false, Bool.false_eq_true,
          if_false, ite_false]
      rw [hframe]
      unfold endPatchPhase
      simp only [hpj]
    refine ⟨{ endSortPhase cM with commandList := cmds' }, hend, ?_, ?_, ?_, ?_, ?_, ?_, ?_⟩
    · show (cM.rootList.mergeSort (rootLe cM)).Perm c.rootList
      exact hsp
    · show ((cM.rootList.mergeSort (rootLe cM)).map
        fun i => (cM.containers.getD i default).ZIndex).Pairwise (· ≤ ·)
      have hsorted := @List.sorted_mergeSort _ (rootLe cM)
        (fun a b d => rootLe_trans cM a b d) (rootLe_total cM) cM.rootList
      refine List.pairwise_map.mpr (hsorted.imp ?_)
      intro a b hab
      simpa [rootLe] using hab
    · show cmds'.length = c.commandList.length
      exact hlen'
    · show ∀ r0 rest, ((cM.rootList.mergeSort (rootLe cM)).map
          fun i => cM.containers.getD i default) = r0 :: rest →
        (cmds'.getD 0 default).dstIdx = r0.HeadIdx + 1
      intro r0 rest hmap
      rw [hs, List.map_cons] at hmap
      injection hmap with hr0 hrest
      rw [← hr0]
      exact hdst0
    · show ((cM.rootList.mergeSort (rootLe cM)).map
          fun i => cM.containers.getD i default).Chain' (fun a b =>
        (cmds'.getD a.TailIdx.toNat default).dstIdx = b.HeadIdx + 1)
      rw [hs, List.map_cons]
      exact hchain
    · show ∀ lc, ((cM.rootList.mergeSort (rootLe cM)).map
          fun i => cM.containers.getD i default).getLast? = some lc →
        (cmds'.getD lc.TailIdx.toNat default).dstIdx = c.commandList.length
      rw [hs, List.map_cons]
      exact hlastp
    · show replayFrom cmds'
          (1 + ((((cM.rootList.mergeSort (rootLe cM)).map
            fun i => cM.containers.getD i default).map segFuel).sum)) 0 =
        (((cM.rootList.mergeSort (rootLe cM)).map
          fun i => cM.containers.getD i default).map segCmds).flatten
      rw [hs, List.map_cons]
      have hlen0' : 0 < cmds'.length := by
        rw [hlen']
        exact List.length_pos.mpr hcne
      have htyp0 : (cmds'.get ⟨0, hlen0'⟩).typ = commandJump := by
        rw [← getD_at cmds' 0 hlen0', htypall 0]
        exact hcmd0
      have hdst0' : (cmds'.get ⟨0, hlen0'⟩).dstIdx =
          (cM.containers.getD i0 default).HeadIdx + 1 := by
        rw [← getD_at cmds' 0 hlen0']
        exact hdst0
      have hb0 := hboundsM i0 hmem0
      rw [show 1 + ((((cM.containers.getD i0 default) ::
          irest.map fun i => cM.containers.getD i default).map segFuel).sum) =
        ((((cM.containers.getD i0 default) ::
          irest.map fun i => cM.containers.getD i default).map segFuel).sum) + 1 from by omega]
      rw [replayFrom]
      rw [dif_pos hlen0']
      rw [if_pos (by simp only [beq_iff_eq]; simpa using htyp0)]
      rw [if_neg (by rw [hdst0']; omega)]
      rw [show ((cmds'.get ⟨0, hlen0'⟩).dstIdx).toNat =
        (cM.containers.getD i0 default).HeadIdx.toNat + 1 from by rw [hdst0']; omega]
      refine replay_segments cmds' (irest.map fun i => cM.containers.getD i default)
        (cM.containers.getD i0 default) ?_ ?_ ?_ hchain ?_
      · intro cnt hcnt
        rw [hlen']
        exact hbR cnt hcnt
      · intro cnt hcnt
        rw [htypall]
        exact htR cnt hcnt
      · intro cnt hcnt j hj1 hj2
        rw [htypall]
        exact hiR cnt hcnt j hj1 hj2
      · intro lc hlc
        rw [hlen']
        exact hlastp lc hlc

/-- Witness for C1: two root containers created in order A (z 2, range
0..2) then B (z 1, range 3..5); `end` sorts B before A, patches the
entry jump to B's content, B's tail to A's content, A's tail to the
buffer end, and replay visits B's then A's commands. -/
theorem end_patches_jumps_zorder_witness :
    (let cEx : Context :=
      { rootList := [0, 1],
        containers := [{ ZIndex := 2, Open := true, HeadIdx := 0, TailIdx := 2 },
                       { ZIndex := 1, Open := true, HeadIdx := 3, TailIdx := 5 }],
        commandList := [⟨1, -1⟩, ⟨3, 0⟩, ⟨1, -1⟩, ⟨1, -1⟩, ⟨3, 0⟩, ⟨1, -1⟩] }
     ∃ c', endFrame cEx = some c' ∧
      c'.rootList.Perm cEx.rootList ∧
      (c'.rootList.map fun i => (c'.containers.getD i default).ZIndex).Pairwise (· ≤ ·) ∧
      c'.commandList.length = cEx.commandList.length ∧
      (∀ r0 rest, (c'.rootList.map fun i => c'.containers.getD i default) = r0 :: rest →
        (c'.commandList.getD 0 default).dstIdx = r0.HeadIdx + 1) ∧
      (c'.rootList.map fun i => c'.containers.getD i default).Chain' (fun a b =>
        (c'.commandList.getD a.TailIdx.toNat default).dstIdx = b.HeadIdx + 1) ∧
      (∀ lc, (c'.rootList.map fun i => c'.containers.getD i default).getLast? = some lc →
        (c'.commandList.getD lc.TailIdx.toNat default).dstIdx = cEx.commandList.length) ∧
      replayFrom c'.commandList
          (1 + (((c'.rootList.map fun i => c'.containers.getD i default).map segFuel).sum)) 0 =
        (((c'.rootList.map fun i => c'.containers.getD i default)).map segCmds).flatten) := by
  refine end_patches_jumps_zorder
    { rootList := [0, 1],
      containers := [{ ZIndex := 2, Open := true, HeadIdx := 0, TailIdx := 2 },
                     { ZIndex := 1, Open := true, HeadIdx := 3, TailIdx := 5 }],
      commandList := [⟨1, -1⟩, ⟨3, 0⟩, ⟨1, -1⟩, ⟨1, -1⟩, ⟨3, 0⟩, ⟨1, -1⟩] }
    rfl rfl rfl rfl (by decide) (by decide) (by decide) (by decide) (by decide) (by decide)
    ?_ (by decide)
  intro i hi j hj1 hj2
  fin_cases hi
  · have hj1a : 0 < j := hj1
    have hj2a : j < 2 := hj2
    interval_cases j
    decide
  · have hj1a : 3 < j := hj1
    have hj2a : j < 5 := hj2
    interval_cases j
    decide

end Microui
